import Mathlib

/-!
Shallow embedding of the core logic of the `ga_ua_extractions_manager` cloud
function (file `ga_ua_extractions_manager/main.py`), together with theorems
settling the specification claims about it.

The embedding covers:
* the calendar-date model used by `datetime` / `calendar` / `pandas.date_range`
  (proleptic Gregorian calendar, rata-die day numbers);
* the batch planner `ga_api_split_request_date_batch_freq`;
* the fan-out dispatcher `async_requests` together with the per-job retry
  function `aiohttp_request_to_function`;
* the template-selection stage of the entry point `prep_request_batches`.
-/

namespace GaUaManager

/-! ## Calendar dates

Python's `datetime.date` (proleptic Gregorian calendar).  `toRd` is the
rata-die day number, identical to Python's `date.toordinal()`
(day 1 = 0001-01-01, which is a Monday). -/

structure Date where
  year : Nat
  month : Nat
  day : Nat
deriving DecidableEq, Repr

/-- Leap-year test, as in Python's `calendar.isleap`. -/
def isLeap (y : Nat) : Bool :=
  decide (y % 4 = 0 ∧ (y % 100 ≠ 0 ∨ y % 400 = 0))

def leapBit (y : Nat) : Nat := if isLeap y then 1 else 0

/-- Number of days of month `m` of year `y`; `calendar.monthrange(y, m)[1]`. -/
def daysInMonth (y m : Nat) : Nat :=
  if m = 2 then (if isLeap y then 29 else 28)
  else if m = 4 ∨ m = 6 ∨ m = 9 ∨ m = 11 then 30
  else 31

/-- Cumulative number of days in the months of year `y` strictly before month `m`. -/
def daysBeforeMonth (y m : Nat) : Nat :=
  if m ≤ 1 then 0
  else if m = 2 then 31
  else if m = 3 then 59 + leapBit y
  else if m = 4 then 90 + leapBit y
  else if m = 5 then 120 + leapBit y
  else if m = 6 then 151 + leapBit y
  else if m = 7 then 181 + leapBit y
  else if m = 8 then 212 + leapBit y
  else if m = 9 then 243 + leapBit y
  else if m = 10 then 273 + leapBit y
  else if m = 11 then 304 + leapBit y
  else 334 + leapBit y

/-- Rata-die day number of a date: Python's `date.toordinal()`.
0001-01-01 has number 1. -/
def toRd (d : Date) : Nat :=
  365 * (d.year - 1) + (d.year - 1) / 4 - (d.year - 1) / 100 + (d.year - 1) / 400
    + daysBeforeMonth d.year d.month + d.day

/-- The dates representable as Python `datetime.date` values (year at least 1,
month and day in range). -/
def ValidDate (d : Date) : Prop :=
  1 ≤ d.year ∧ 1 ≤ d.month ∧ d.month ≤ 12 ∧ 1 ≤ d.day ∧ d.day ≤ daysInMonth d.year d.month

instance (d : Date) : Decidable (ValidDate d) := by
  unfold ValidDate; infer_instance

/-- Successor date (one `timedelta(days=1)` step forward). -/
def nextDay (d : Date) : Date :=
  if d.day < daysInMonth d.year d.month then ⟨d.year, d.month, d.day + 1⟩
  else if d.month < 12 then ⟨d.year, d.month + 1, 1⟩
  else ⟨d.year + 1, 1, 1⟩

/-- Predecessor date (one `timedelta(days=1)` step backward).  Python raises
`OverflowError` below `datetime.min` = 0001-01-01; the model saturates there,
and `ga_api_split_core` raises its modelled `OverflowError` before ever
stepping below that bound, so the saturation case is unreachable on code
paths. -/
def prevDay (d : Date) : Date :=
  if 1 < d.day then ⟨d.year, d.month, d.day - 1⟩
  else if 1 < d.month then ⟨d.year, d.month - 1, daysInMonth d.year (d.month - 1)⟩
  else if 1 < d.year then ⟨d.year - 1, 12, 31⟩
  else d

/-- Date plus `n` days (`d + timedelta(days=n)`).  Python raises
`OverflowError` past `datetime.max` = 9999-12-31 while this total model
rolls into year 10000; `ga_api_split_core` checks the `dtMaxRd` bound and
raises its modelled `OverflowError` before adding, so the rolled-over
region is unreachable on code paths. -/
def addDays (d : Date) : Nat → Date
  | 0 => d
  | n + 1 => nextDay (addDays d n)

/-- Date minus `n` days (`d - timedelta(days=n)`). -/
def subDays (d : Date) : Nat → Date
  | 0 => d
  | n + 1 => prevDay (subDays d n)

/-- Python's `date.isoweekday()`: Monday = 1, ..., Sunday = 7.
Rata-die day 1 (0001-01-01) is a Monday. -/
def isoweekday (d : Date) : Nat :=
  if toRd d % 7 = 0 then 7 else toRd d % 7

/-! ## Parsing date strings

Model of Python `datetime.strptime(s, "%Y-%m-%d")` (lines 256-257 of
`ga_ua_extractions_manager/main.py`).  CPython's `_strptime` matches `%Y`
against exactly four digits and `%m` / `%d` against one or two digits, and
then validates the values when constructing the `datetime` (month 1-12, day
within the month, year at least `MINYEAR` = 1).  `none` models the
`ValueError` raised on any mismatch. -/

def digitsToNat (cs : List Char) : Nat :=
  cs.foldl (fun acc c => acc * 10 + (c.toNat - 48)) 0

def parseDigits (cs : List Char) : Option Nat :=
  if cs ≠ [] ∧ cs.all Char.isDigit then some (digitsToNat cs) else none

def splitDash : List Char → List (List Char)
  | [] => [[]]
  | c :: rest =>
    let r := splitDash rest
    if c = '-' then [] :: r
    else
      match r with
      | h :: t => (c :: h) :: t
      | [] => [[c]]

def strptimeYMD (s : String) : Option Date :=
  match splitDash s.toList with
  | [ys, ms, ds] =>
    match parseDigits ys, parseDigits ms, parseDigits ds with
    | some y, some m, some d =>
      if ys.length = 4 ∧ 1 ≤ y ∧ ms.length ≤ 2 ∧ 1 ≤ m ∧ m ≤ 12 ∧
          ds.length ≤ 2 ∧ 1 ≤ d ∧ d ≤ daysInMonth y m
      then some ⟨y, m, d⟩ else none
    | _, _, _ => none
  | _ => none

/-! ## The batch planner: ga_api_split_request_date_batch_freq

Lines 245-311 of `ga_ua_extractions_manager/main.py`. -/

/-- One entry of the returned batch list.  The Python code stores the two
dates as strings rendered with `strftime("%Y-%m-%d")`; the model keeps the
date values themselves (rendering then re-parsing a date round-trips). -/
structure DateBatch where
  start_date : Date
  end_date : Date
deriving DecidableEq, Repr

/-- All dates from `s` to `e` inclusive in chronological order: the sequence
that `pandas.date_range(s, e, freq="D")` generates once both endpoints have
been converted to `Timestamp`s (empty when `e` is before `s`).  The
conversion itself raises `OutOfBoundsDatetime` for a date outside the
nanosecond `Timestamp` range 1677-09-22 .. 2262-04-11; `ga_api_split_core`
performs that bounds check (`tsInBounds`) before this generator is used, so
this function only ever models in-bounds endpoints on code paths. -/
def datesBetween (s e : Date) : List Date :=
  (List.range (toRd e + 1 - toRd s)).map (addDays s)

/-- The sequence `pandas.date_range(s, e, freq="W")` (anchor `W-SUN`)
generates for in-bounds endpoints: the Sundays lying in `[s, e]`, in
chronological order.  The `Timestamp` bounds check on the endpoints is
performed in `ga_api_split_core` before this generator is used. -/
def dateRangeW (s e : Date) : List Date :=
  (datesBetween s e).filter (fun d => isoweekday d == 7)

/-- The sequence `pandas.date_range(s, e, freq="MS")` generates for in-bounds
endpoints: the first days of months lying in `[s, e]`, in chronological
order.  The `Timestamp` bounds check on the endpoints is performed in
`ga_api_split_core` before this generator is used. -/
def dateRangeMS (s e : Date) : List Date :=
  (datesBetween s e).filter (fun d => d.day == 1)

/-- Rata-die number of the earliest calendar date whose midnight a pandas
nanosecond `Timestamp` can represent: `Timestamp.min` is
1677-09-21 00:12:43.145224193, so the earliest such date is 1677-09-22. -/
def tsMinRd : Nat := toRd ⟨1677, 9, 22⟩

/-- Rata-die number of the latest calendar date whose midnight a pandas
nanosecond `Timestamp` can represent: `Timestamp.max` is
2262-04-11 23:47:16.854775807, so the latest such date is 2262-04-11. -/
def tsMaxRd : Nat := toRd ⟨2262, 4, 11⟩

/-- Whether `pandas.Timestamp` can represent midnight of `d`.
`pd.date_range` converts both endpoints to `Timestamp`s and raises
`OutOfBoundsDatetime` when either falls outside this range. -/
def tsInBounds (d : Date) : Bool :=
  decide (tsMinRd ≤ toRd d) && decide (toRd d ≤ tsMaxRd)

/-- Rata-die number of `datetime.max` = 9999-12-31: CPython datetime
arithmetic whose result would pass it raises `OverflowError` (symmetrically,
a result before `datetime.min` = 0001-01-01, rata die 1, also raises). -/
def dtMaxRd : Nat := toRd ⟨9999, 12, 31⟩

/-- The exceptions `ga_api_split_request_date_batch_freq` can raise:
`ValueError` from `strptime` on an unparseable date string, `OverflowError`
from `datetime` plus/minus `timedelta` landing outside
0001-01-01 .. 9999-12-31, and `pandas.errors.OutOfBoundsDatetime` from
`pd.date_range` when an endpoint is outside the nanosecond `Timestamp`
range. -/
inductive SplitErr where
  | valueErr
  | overflowErr
  | outOfBoundsDatetime
deriving DecidableEq, Repr

/-- The branch dispatch of `ga_api_split_request_date_batch_freq` after the
two `strptime` calls succeeded.  Each branch mirrors the source:
none; "daily" via `freq="D"`; "weekly" with start pulled back to the
preceding Sunday and end pushed to the following Saturday, then `freq="W"`;
"monthly" with start pulled to the 1st and end pushed to the month's last
day, then `freq="MS"`.  Any other frequency string falls through every
`elif` and the initial empty list is returned.  The raise paths are modelled
where the source hits them: in the weekly branch the `timedelta` arithmetic
raises `OverflowError` when the pulled-back start would precede
`datetime.min` (rata die 1) or the pushed-forward end would pass
`datetime.max` (`dtMaxRd`); in the daily/weekly/monthly branches
`pd.date_range` raises `OutOfBoundsDatetime` when an endpoint handed to it
(the original dates for daily, the widened dates for weekly/monthly) is
outside the `Timestamp` range (`tsInBounds`).  The monthly widening builds
its dates with `replace` and the `datetime` constructor, which cannot leave
the `datetime` range, so that branch has no `OverflowError` path. -/
def ga_api_split_core (start_date_dt end_date_dt : Date)
    (batch_freq : Option String) : Except SplitErr (List DateBatch) :=
  match batch_freq with
  | none => Except.ok [⟨start_date_dt, end_date_dt⟩]
  | some f =>
    if f = "daily" then
      if tsInBounds start_date_dt && tsInBounds end_date_dt then
        Except.ok ((datesBetween start_date_dt end_date_dt).map (fun d => ⟨d, d⟩))
      else Except.error SplitErr.outOfBoundsDatetime
    else if f = "weekly" then
      if isoweekday start_date_dt ≠ 7 ∧
          toRd start_date_dt ≤ isoweekday start_date_dt % 7 then
        Except.error SplitErr.overflowErr
      else if isoweekday end_date_dt ≠ 6 ∧
          dtMaxRd < toRd end_date_dt + (13 - isoweekday end_date_dt) % 7 then
        Except.error SplitErr.overflowErr
      else
        let new_start :=
          if isoweekday start_date_dt ≠ 7 then
            subDays start_date_dt (isoweekday start_date_dt % 7)
          else start_date_dt
        let new_end :=
          if isoweekday end_date_dt ≠ 6 then
            addDays end_date_dt ((13 - isoweekday end_date_dt) % 7)
          else end_date_dt
        if tsInBounds new_start && tsInBounds new_end then
          Except.ok ((dateRangeW new_start new_end).map
            (fun d => ⟨d, addDays d ((13 - isoweekday d) % 7)⟩))
        else Except.error SplitErr.outOfBoundsDatetime
    else if f = "monthly" then
      let new_start :=
        if start_date_dt.day ≠ 1 then
          ⟨start_date_dt.year, start_date_dt.month, 1⟩
        else start_date_dt
      let month_last : Date :=
        ⟨end_date_dt.year, end_date_dt.month,
          daysInMonth end_date_dt.year end_date_dt.month⟩
      let new_end := if end_date_dt ≠ month_last then month_last else end_date_dt
      if tsInBounds new_start && tsInBounds new_end then
        Except.ok ((dateRangeMS new_start new_end).map
          (fun d => ⟨d, ⟨d.year, d.month, daysInMonth d.year d.month⟩⟩))
      else Except.error SplitErr.outOfBoundsDatetime
    else Except.ok []

/-- Model of `ga_api_split_request_date_batch_freq(start_date, end_date,
batch_freq)`: both date strings are parsed with `strptime` (a parse failure
raises `ValueError`), then the list of date batches is built according to
the frequency; the branch bodies themselves can raise `OverflowError` or
`OutOfBoundsDatetime` as modelled in `ga_api_split_core`. -/
def ga_api_split_request_date_batch_freq (start_date end_date : String)
    (batch_freq : Option String) : Except SplitErr (List DateBatch) :=
  match strptimeYMD start_date, strptimeYMD end_date with
  | some sd, some ed => ga_api_split_core sd ed batch_freq
  | _, _ => Except.error SplitErr.valueErr

/-- First day of the month after the month of `d`: the date that
`nextMonthFirst` produces is used to state the consecutive-months property of
the monthly batch planner. -/
def nextMonthFirst (d : Date) : Date :=
  if d.month < 12 then ⟨d.year, d.month + 1, 1⟩ else ⟨d.year + 1, 1, 1⟩

/-! ## The fan-out dispatcher: aiohttp_request_to_function and async_requests

Lines 168-243 of `ga_ua_extractions_manager/main.py`. -/

/-- A response body, classified by what `json.loads` and the subsequent
`result_json['status']` subscript do with it; the dispatcher observes a body
only through that parse. -/
inductive BodyKind where
  | malformed
  | nonObject
  | noStatusField
  | withStatus (v : String)
deriving DecidableEq

/-- What the network yields to one `session.post(...)` attempt: either an
HTTP response (status code and body text) or an
`aiohttp.ClientConnectionError`. -/
inductive AttemptOutcome where
  | resp (status : Nat) (body : BodyKind)
  | connError
deriving DecidableEq

/-- aiohttp's `response.ok`: true when the HTTP status is below 400. -/
def respOk (status : Nat) : Bool := status < 400

/-- The f-string of line 240: `Unable to load data after {retries} retries`. -/
def failMessage (retries : Nat) : String :=
  "Unable to load data after " ++ toString retries ++ " retries"

/-- What the coroutine `aiohttp_request_to_function` evaluates to:
`text` - it returned the body string of a response with `response.ok`;
`failRecord` - it returned the terminal-failure dict (fields `status =
"Failed"`, `message`, the echoed `request_data`, and `response_status`);
`raisedUnbound` - it raised `UnboundLocalError`, because line 242 reads
`response` although no attempt ever bound it (every attempt raised a
connection error). -/
inductive TaskValue where
  | text (body : BodyKind)
  | failRecord (message : String) (response_status : Nat)
  | raisedUnbound
deriving DecidableEq

/-- Observable outcome of one run of the per-job coroutine: its value plus
the number of POST attempts made and of 1-second `asyncio.sleep` calls. -/
structure RequestRun where
  result : TaskValue
  attemptsMade : Nat
  sleeps : Nat
deriving DecidableEq

/-- The retry loop of `aiohttp_request_to_function` (lines 218-243): `fuel`
is `retry - retries`, `retries` the Python loop variable (each failed attempt
increments it after a 1-second sleep; a `response.ok` response returns the
body text at once), `lastResp` the binding state of the Python variable
`response` (status of the most recent HTTP response, `none` while unbound).
When the loop exits with the budget exhausted, the terminal-failure dict is
built; its `response_status` field reads `response.status`, which raises
`UnboundLocalError` when `response` was never bound. -/
def requestGo (att : Nat → AttemptOutcome) :
    Nat → Nat → Option Nat → Nat → Nat → RequestRun
  | 0, retries, lastResp, made, sleeps =>
    match lastResp with
    | some st => ⟨.failRecord (failMessage retries) st, made, sleeps⟩
    | none => ⟨.raisedUnbound, made, sleeps⟩
  | fuel + 1, retries, lastResp, made, sleeps =>
    match att retries with
    | .resp st body =>
      if respOk st then ⟨.text body, made + 1, sleeps⟩
      else requestGo att fuel (retries + 1) (some st) (made + 1) (sleeps + 1)
    | .connError => requestGo att fuel (retries + 1) lastResp (made + 1) (sleeps + 1)

/-- Model of one job's `aiohttp_request_to_function(session, payload)`:
`att i` is the outcome the network gives the (i+1)-st POST of this payload;
the retry budget is `retry = 3`.  The `AsyncLimiter(600, 60)` constructed on
line 216 grants its first acquisition immediately and the loop makes at most
3 requests, so within one job it never delays anything; its per-job identity
is modelled by `limitersCreated`. -/
def aiohttp_request_to_function (att : Nat → AttemptOutcome) : RequestRun :=
  requestGo att 3 0 none 0 0

/-- The value of one job's task. -/
def resultOf (att : Nat → AttemptOutcome) : TaskValue :=
  (aiohttp_request_to_function att).result

/-- The exceptions the result-processing loop of `async_requests` (lines
188-196) can raise; none of them is an `ExceptionGroup`, so none is caught
inside `async_requests`. -/
inductive ProcErr where
  | typeError
  | jsonDecodeError
  | keyError
deriving DecidableEq

/-- One iteration of the result-processing loop: `json.loads(result)`
followed by the `result_json['status'] == "Success"` test; `true` appends to
`successful_data_loads`, `false` appends `result_json` to
`failed_data_loads`.  A returned terminal-failure dict hits
`json.loads(dict)`, which raises `TypeError`.  (The `if result is None`
branch of lines 190-191 is unreachable: the task always returns a string or
a dict.  A `raisedUnbound` value never reaches this loop either - it is
routed to the ExceptionGroup branch by `async_requests` - and is mapped to
an arbitrary error here.) -/
def processResult : TaskValue → Except ProcErr Bool
  | .text .malformed => .error .jsonDecodeError
  | .text .nonObject => .error .typeError
  | .text .noStatusField => .error .keyError
  | .text (.withStatus v) => .ok (v == "Success")
  | .failRecord _ _ => .error .typeError
  | .raisedUnbound => .error .typeError

def isRaised : TaskValue → Bool
  | .raisedUnbound => true
  | _ => false

/-- The summary dictionary built on lines 200-203 (the source spells
`sucesses` this way). -/
structure Summary where
  data_load_attempts : Nat
  data_load_sucesses : Nat
  data_load_failures : Nat
deriving DecidableEq

/-- Model of `async_requests(payload_list)`, each payload represented by the
attempt stream the network gives it.  All tasks run under one
`asyncio.TaskGroup` over a single shared `ClientSession` whose
`TCPConnector(limit=8)` bounds concurrent connections.  If any task raises,
the TaskGroup cancels the unfinished sibling tasks and `async with tg`
raises an `ExceptionGroup`; the `except ExceptionGroup` branch only prints
it, the result loop is skipped, and the summary is returned with zero
success/failure counts.  Otherwise the loop processes every task result in
turn; an exception raised there (`TypeError`, `JSONDecodeError`, `KeyError`)
is not caught and propagates out of `async_requests`, modelled as
`.error`. -/
def async_requests (payload_list : List (Nat → AttemptOutcome)) :
    Except ProcErr Summary :=
  let task_results := payload_list.map resultOf
  if task_results.any isRaised then
    .ok ⟨payload_list.length, 0, 0⟩
  else
    match task_results.mapM processResult with
    | .error ex => .error ex
    | .ok tallies => .ok ⟨payload_list.length, tallies.count true, tallies.count false⟩

/-! ## Concurrency resources (structural model)

`async_requests` builds one `aiohttp.TCPConnector(limit=8)` (line 179) and a
single `ClientSession` over it, shared by every job task, while
`aiohttp_request_to_function` constructs `AsyncLimiter(600, 60)` on line 216
inside the per-job coroutine, so each job task gets a fresh limiter
instance.  Object identity of the limiter instances is modelled by the index
of the job whose call constructed them. -/

structure AsyncLimiterInst where
  obj_id : Nat
  max_rate : Nat
  time_period : Nat
deriving DecidableEq

/-- The `limit` argument of the single `TCPConnector` shared by all jobs. -/
def tcp_connector_limit : Nat := 8

/-- The `AsyncLimiter` instances constructed while dispatching `jobCount`
payloads: one per job, each with `max_rate = 600` and `time_period = 60`. -/
def limitersCreated (jobCount : Nat) : List AsyncLimiterInst :=
  (List.range jobCount).map (fun j => ⟨j, 600, 60⟩)

/-! ## Template selection in prep_request_batches (lines 68-136) -/

structure ExtractionTemplate where
  name : String
deriving DecidableEq

/-- A request's `standard_extraction_templates` or
`custom_extraction_templates` dictionary: the results of `.get('load_all')`
and `.get('include')` (absent key modelled as `none`). -/
structure TemplateSelection where
  load_all : Option Bool
  includeNames : Option (List String)
deriving DecidableEq

/-- The guard `dict is not None and dict.get('load_all') is True`. -/
def loadAllTrue : Option TemplateSelection → Bool
  | some s => s.load_all == some true
  | none => false

/-- The guard `dict is not None and dict.get('include') is not None` plus
the test `template['name'] in include`. -/
def includeHas (sel : Option TemplateSelection) (n : String) : Bool :=
  match sel with
  | some s =>
    match s.includeNames with
    | some names => names.contains n
    | none => false
  | none => false

/-- The selection loop of lines 71-77 (identically lines 86-92): the whole
config list when `load_all` is `True`, otherwise the config templates whose
name appears in the request's `include` list. -/
def selectTemplates (sel : Option TemplateSelection)
    (configList : List ExtractionTemplate) : List ExtractionTemplate :=
  if loadAllTrue sel then configList
  else configList.filter (fun t => includeHas sel t.name)

/-- Outcome of the entry point: either the early structured failure response
of lines 132-136, or the value of the rest of the function. -/
inductive PrepOutcome (α β : Type) where
  | failedNoTemplates (status message : String) (request_data : α)
  | completed (value : β)
deriving DecidableEq

def noTemplatesMessage : String :=
  "The request data did not include any templates to load or the requested templates are not valid templates"

/-- The template-selection stage of `prep_request_batches` (lines 68-136):
standard and custom templates are selected and concatenated; when the
combined list is empty the function returns the failure response (status
"Failed", the message, the echoed request data) before any date-range
planning or dispatch; otherwise the rest of the function (`rest`, covering
lines 138-166: per-template date-range planning, payload building and
`asyncio.run(async_requests(...))`) consumes the combined list. -/
def prep_request_batches {α β : Type} (request_data : α)
    (stdSel cstSel : Option TemplateSelection)
    (config_std config_cst : List ExtractionTemplate)
    (rest : List ExtractionTemplate → β) : PrepOutcome α β :=
  let standard_extraction_template_list := selectTemplates stdSel config_std
  let custom_extraction_template_list := selectTemplates cstSel config_cst
  let combined_template_list :=
    standard_extraction_template_list ++ custom_extraction_template_list
  if combined_template_list.length = 0 then
    .failedNoTemplates "Failed" noTemplatesMessage request_data
  else
    .completed (rest combined_template_list)

instance {ε α : Type} [DecidableEq ε] [DecidableEq α] : DecidableEq (Except ε α) := fun x y =>
  match x, y with
  | .error a, .error b =>
    if h : a = b then isTrue (by rw [h])
    else isFalse (by intro hc; cases hc; exact h rfl)
  | .ok a, .ok b =>
    if h : a = b then isTrue (by rw [h])
    else isFalse (by intro hc; cases hc; exact h rfl)
  | .error _, .ok _ => isFalse (by intro hc; cases hc)
  | .ok _, .error _ => isFalse (by intro hc; cases hc)

/-! ## Helper definitions for the dispatcher claims -/

/-- An attempt that counts against the retry budget: a response that is not
`response.ok`, or a connection error. -/
def failedAttempt : AttemptOutcome → Prop
  | .resp st _ => respOk st = false
  | .connError => True

/-- The status of the last HTTP response received among the three attempts
consumed by an exhausted retry loop: the final value of the Python variable
`response` (none when every attempt raised a connection error and `response`
was never bound). -/
def lastRespAmong (att : Nat → AttemptOutcome) : Option Nat :=
  match att 2 with
  | .resp st _ => some st
  | .connError =>
    match att 1 with
    | .resp st _ => some st
    | .connError =>
      match att 0 with
      | .resp st _ => some st
      | .connError => none

/-- The task values the tally loop counts as a successful data load: a
returned body that parsed to an object whose `status` equals "Success". -/
def isSuccessValue : TaskValue → Bool
  | .text (.withStatus v) => v == "Success"
  | _ => false

/-! # Theorems -/

/-! ### Arithmetic lemmas about the calendar model -/

theorem daysInMonth_pos (y m : Nat) : 1 ≤ daysInMonth y m := by
  unfold daysInMonth
  split_ifs <;> omega

theorem daysInMonth_le (y m : Nat) : daysInMonth y m ≤ 31 := by
  unfold daysInMonth
  split_ifs <;> omega

theorem validDate_mk (y m d : Nat) :
    ValidDate ⟨y, m, d⟩ ↔ 1 ≤ y ∧ 1 ≤ m ∧ m ≤ 12 ∧ 1 ≤ d ∧ d ≤ daysInMonth y m :=
  Iff.rfl

theorem toRd_mk (y m d : Nat) :
    toRd ⟨y, m, d⟩ =
      365 * (y - 1) + (y - 1) / 4 - (y - 1) / 100 + (y - 1) / 400 + daysBeforeMonth y m + d :=
  rfl

theorem daysBeforeMonth_succ (y m : Nat) (h1 : 1 ≤ m) (h2 : m ≤ 11) :
    daysBeforeMonth y (m + 1) = daysBeforeMonth y m + daysInMonth y m := by
  have hc : m = 1 ∨ m = 2 ∨ m = 3 ∨ m = 4 ∨ m = 5 ∨ m = 6 ∨ m = 7 ∨ m = 8 ∨ m = 9 ∨
      m = 10 ∨ m = 11 := by omega
  rcases hc with rfl | rfl | rfl | rfl | rfl | rfl | rfl | rfl | rfl | rfl | rfl <;>
    simp only [daysBeforeMonth, daysInMonth, leapBit] <;> norm_num <;> split_ifs <;> omega

theorem daysBeforeMonth_one (y : Nat) : daysBeforeMonth y 1 = 0 := by
  simp [daysBeforeMonth]

theorem daysBeforeMonth_twelve (y : Nat) : daysBeforeMonth y 12 = 334 + leapBit y := by
  simp [daysBeforeMonth]

theorem toRd_jan1_succ (y : Nat) (hy : 1 ≤ y) :
    toRd ⟨y + 1, 1, 1⟩ = toRd ⟨y, 12, 31⟩ + 1 := by
  rw [toRd_mk, toRd_mk, daysBeforeMonth_one, daysBeforeMonth_twelve]
  have hsub : y + 1 - 1 = y := by omega
  rw [hsub]
  have hy1 : y - 1 + 1 = y := by omega
  have e4 := Nat.succ_div (y - 1) 4
  have e100 := Nat.succ_div (y - 1) 100
  have e400 := Nat.succ_div (y - 1) 400
  rw [hy1] at e4 e100 e400
  rw [e4, e100, e400]
  unfold leapBit isLeap
  split_ifs <;> simp only [decide_eq_true_eq] at * <;> omega

theorem toRd_nextDay (d : Date) (h : ValidDate d) :
    toRd (nextDay d) = toRd d + 1 := by
  obtain ⟨hy, hm1, hm2, hd1, hd2⟩ := h
  unfold nextDay
  split_ifs with h1 h2
  · rw [toRd_mk]
    simp only [toRd]
    omega
  · -- month rollover: d.day = daysInMonth, month < 12
    have hday : d.day = daysInMonth d.year d.month := by omega
    have hs := daysBeforeMonth_succ d.year d.month hm1 (by omega)
    rw [toRd_mk]
    simp only [toRd]
    omega
  · -- year rollover: month = 12, day = 31
    have hm : d.month = 12 := by omega
    have hday : d.day = 31 := by
      rw [hm] at hd2 h1
      have hdi : daysInMonth d.year 12 = 31 := by simp [daysInMonth]
      omega
    have hj := toRd_jan1_succ d.year hy
    have hd : d = ⟨d.year, 12, 31⟩ := by
      cases d
      simp_all
    rw [hd]
    simpa using hj

theorem valid_nextDay (d : Date) (h : ValidDate d) : ValidDate (nextDay d) := by
  obtain ⟨hy, hm1, hm2, hd1, hd2⟩ := h
  unfold nextDay
  split_ifs with h1 h2
  · rw [validDate_mk]
    omega
  · rw [validDate_mk]
    have := daysInMonth_pos d.year (d.month + 1)
    omega
  · rw [validDate_mk]
    have := daysInMonth_pos (d.year + 1) 1
    omega

theorem valid_addDays (d : Date) (h : ValidDate d) (n : Nat) :
    ValidDate (addDays d n) := by
  induction n with
  | zero => exact h
  | succ k ih => exact valid_nextDay _ ih

theorem toRd_addDays (d : Date) (h : ValidDate d) (n : Nat) :
    toRd (addDays d n) = toRd d + n := by
  induction n with
  | zero => rfl
  | succ k ih =>
    have := toRd_nextDay (addDays d k) (valid_addDays d h k)
    simp [addDays, this, ih]
    omega

theorem addDays_succ_left (d : Date) (n : Nat) :
    addDays d (n + 1) = addDays (nextDay d) n := by
  induction n with
  | zero => rfl
  | succ k ih => exact congrArg nextDay ih

theorem addDays_add (d : Date) (a b : Nat) :
    addDays d (a + b) = addDays (addDays d a) b := by
  induction b with
  | zero => rfl
  | succ k ih => simp [addDays, ← Nat.add_assoc, ih]

theorem toRd_min (d : Date) (h : ValidDate d) : 1 ≤ toRd d := by
  obtain ⟨hy, hm1, hm2, hd1, hd2⟩ := h
  unfold toRd
  omega

theorem toRd_prevDay (d : Date) (h : ValidDate d) (h2 : 2 ≤ toRd d) :
    ValidDate (prevDay d) ∧ toRd (prevDay d) = toRd d - 1 := by
  obtain ⟨hy, hm1, hm2, hd1, hd2⟩ := h
  unfold prevDay
  split_ifs with hd hm hyy
  · refine ⟨by rw [validDate_mk]; omega, ?_⟩
    rw [toRd_mk]
    simp only [toRd]
    omega
  · -- day = 1, month ≥ 2
    have hday : d.day = 1 := by omega
    have hs := daysBeforeMonth_succ d.year (d.month - 1) (by omega) (by omega)
    have hm' : d.month - 1 + 1 = d.month := by omega
    rw [hm'] at hs
    refine ⟨by rw [validDate_mk]; have := daysInMonth_pos d.year (d.month - 1); omega, ?_⟩
    rw [toRd_mk]
    simp only [toRd]
    omega
  · -- day = 1, month = 1, year ≥ 2
    have hday : d.day = 1 := by omega
    have hmm : d.month = 1 := by omega
    have hj := toRd_jan1_succ (d.year - 1) (by omega)
    have hy' : d.year - 1 + 1 = d.year := by omega
    rw [hy'] at hj
    have hdim : daysInMonth (d.year - 1) 12 = 31 := by simp [daysInMonth]
    refine ⟨by rw [validDate_mk]; omega, ?_⟩
    have hde : d = ⟨d.year, 1, 1⟩ := by
      cases d
      simp_all
    have hdeq : toRd d = toRd ⟨d.year, 1, 1⟩ := congrArg toRd hde
    rw [hdeq]
    omega
  · -- d = 0001-01-01: excluded by h2
    exfalso
    have hday : d.day = 1 := by omega
    have hmm : d.month = 1 := by omega
    have hyy' : d.year = 1 := by omega
    have h1 : toRd d = 1 := by
      have hde : d = ⟨1, 1, 1⟩ := by
        cases d
        simp_all
      rw [hde]
      rfl
    omega

theorem toRd_subDays (d : Date) (h : ValidDate d) (n : Nat) (hn : n + 1 ≤ toRd d) :
    ValidDate (subDays d n) ∧ toRd (subDays d n) = toRd d - n := by
  induction n with
  | zero => exact ⟨h, rfl⟩
  | succ k ih =>
    obtain ⟨hv, hr⟩ := ih (by omega)
    have hp := toRd_prevDay (subDays d k) hv (by omega)
    refine ⟨hp.1, ?_⟩
    simp only [subDays]
    rw [hp.2, hr]
    omega


theorem strptimeYMD_valid (s : String) (d : Date) (h : strptimeYMD s = some d) :
    ValidDate d := by
  unfold strptimeYMD at h
  split at h
  · split at h
    · split at h
      · injection h with h'
        subst h'
        rw [validDate_mk]
        simp_all
      · exact absurd h (by simp)
    all_goals exact absurd h (by simp)
  · exact absurd h (by simp)

/-! ### Lemmas about datesBetween and the filtered date ranges -/

theorem datesBetween_nil (s e : Date) (h : toRd e < toRd s) : datesBetween s e = [] := by
  unfold datesBetween
  have h0 : toRd e + 1 - toRd s = 0 := by omega
  rw [h0]
  rfl

theorem datesBetween_cons (s e : Date) (h : ValidDate s) (hle : toRd s ≤ toRd e) :
    datesBetween s e = s :: datesBetween (nextDay s) e := by
  unfold datesBetween
  rw [toRd_nextDay s h]
  have hn : toRd e + 1 - toRd s = (toRd e + 1 - (toRd s + 1)) + 1 := by omega
  rw [hn, List.range_succ_eq_map, List.map_cons, List.map_map]
  have hf : (addDays s ∘ Nat.succ) = addDays (nextDay s) := by
    funext i
    exact addDays_succ_left s i
  rw [hf]
  rfl

theorem datesBetween_add_split :
    ∀ (k : Nat) (s e : Date), ValidDate s → toRd s + k ≤ toRd e + 1 →
      datesBetween s e = (List.range k).map (addDays s) ++ datesBetween (addDays s k) e := by
  intro k
  induction k with
  | zero =>
    intro s e h hk
    simp [addDays]
  | succ j ih =>
    intro s e h hk
    rw [datesBetween_cons s e h (by omega)]
    rw [ih (nextDay s) e (valid_nextDay s h) (by rw [toRd_nextDay s h]; omega)]
    rw [List.range_succ_eq_map, List.map_cons, List.map_map]
    have hf : (addDays s ∘ Nat.succ) = addDays (nextDay s) := by
      funext i
      exact addDays_succ_left s i
    rw [hf, addDays_succ_left]
    rfl

theorem mem_datesBetween (s e d : Date) :
    d ∈ datesBetween s e ↔ ∃ i, i < toRd e + 1 - toRd s ∧ d = addDays s i := by
  unfold datesBetween
  simp [List.mem_map, List.mem_range, eq_comm]

theorem datesBetween_head (s e : Date) (hle : toRd s ≤ toRd e) :
    (datesBetween s e).head? = some s := by
  unfold datesBetween
  have hn : toRd e + 1 - toRd s = (toRd e - toRd s) + 1 := by omega
  rw [hn, List.range_succ_eq_map]
  rfl

theorem datesBetween_getLast (s e : Date) (hle : toRd s ≤ toRd e) :
    (datesBetween s e).getLast? = some (addDays s (toRd e - toRd s)) := by
  unfold datesBetween
  have hn : toRd e + 1 - toRd s = (toRd e - toRd s) + 1 := by omega
  rw [hn, List.range_succ, List.map_append]
  simp

theorem datesBetween_length (s e : Date) :
    (datesBetween s e).length = toRd e + 1 - toRd s := by
  unfold datesBetween
  simp

theorem datesBetween_chain (s e : Date) (h : ValidDate s) :
    List.Chain' (fun a b => toRd b = toRd a + 1) (datesBetween s e) := by
  unfold datesBetween
  rw [List.chain'_map]
  rcases hn : toRd e + 1 - toRd s with _ | n
  · simp
  · rw [List.chain'_range_succ]
    intro m hm
    rw [toRd_addDays s h, toRd_addDays s h]
    omega

theorem isoweekday_eq_seven (d : Date) : isoweekday d = 7 ↔ toRd d % 7 = 0 := by
  unfold isoweekday
  have h7 : toRd d % 7 < 7 := Nat.mod_lt _ (by omega)
  split_ifs with h <;> omega

theorem isoweekday_range (d : Date) : 1 ≤ isoweekday d ∧ isoweekday d ≤ 7 := by
  unfold isoweekday
  have h7 : toRd d % 7 < 7 := Nat.mod_lt _ (by omega)
  split_ifs with h <;> omega

theorem isoweekday_mod (d : Date) : isoweekday d % 7 = toRd d % 7 := by
  unfold isoweekday
  have h7 : toRd d % 7 < 7 := Nat.mod_lt _ (by omega)
  split_ifs with h <;> omega

theorem filter_map_range_single (f : Nat → Date) (p : Date → Bool) :
    ∀ (k : Nat), 1 ≤ k → (∀ i, i < k → p (f i) = (i == 0)) →
      ((List.range k).map f).filter p = [f 0] := by
  intro k
  induction k with
  | zero => omega
  | succ j ih =>
    intro hk hp
    rcases Nat.eq_zero_or_pos j with rfl | hj
    · have h0 : p (f 0) = true := by simpa using hp 0 (by omega)
      simp [List.range_succ, h0]
    · rw [List.range_succ, List.map_append, List.filter_append]
      rw [ih hj (fun i hi => hp i (by omega))]
      have hj0 : p (f j) = false := by
        rw [hp j (by omega), beq_eq_false_iff_ne]
        omega
      simp [hj0]

theorem dateRangeW_nil (s e : Date) (h : toRd e < toRd s) : dateRangeW s e = [] := by
  unfold dateRangeW
  rw [datesBetween_nil s e h]
  rfl

theorem dateRangeW_cons (s e : Date) (h : ValidDate s) (hs : toRd s % 7 = 0)
    (he : toRd e % 7 = 6) (hle : toRd s ≤ toRd e) :
    dateRangeW s e = s :: dateRangeW (addDays s 7) e := by
  unfold dateRangeW
  rw [datesBetween_add_split 7 s e h (by omega), List.filter_append]
  have h1 : ((List.range 7).map (addDays s)).filter (fun d => isoweekday d == 7) =
      [addDays s 0] := by
    apply filter_map_range_single
    · omega
    · intro i hi
      have hrd : toRd (addDays s i) = toRd s + i := toRd_addDays s h i
      rcases Nat.eq_zero_or_pos i with rfl | hi0
      · have hiso : isoweekday (addDays s 0) = 7 := by
          rw [isoweekday_eq_seven, hrd]
          omega
        simp [hiso]
      · have hmod : (toRd s + i) % 7 = i := by omega
        have hiso : isoweekday (addDays s i) = i := by
          unfold isoweekday
          rw [hrd, hmod, if_neg (by omega)]
        rw [hiso]
        have hb1 : (i == 7) = false := beq_eq_false_iff_ne.mpr (by omega)
        have hb2 : (i == 0) = false := beq_eq_false_iff_ne.mpr (by omega)
        rw [hb1, hb2]
  rw [h1]
  rfl

theorem weekly_mem (s e : Date) (hv : ValidDate s) (d : Date) (hd : d ∈ dateRangeW s e) :
    ValidDate d ∧ toRd d % 7 = 0 := by
  unfold dateRangeW at hd
  rcases List.mem_filter.mp hd with ⟨hmem, hp⟩
  rcases (mem_datesBetween s e d).mp hmem with ⟨i, hi, rfl⟩
  refine ⟨valid_addDays s hv i, ?_⟩
  rw [← isoweekday_eq_seven]
  simpa using hp

theorem weekly_head (s e : Date) (hv : ValidDate s) (hs : toRd s % 7 = 0)
    (he : toRd e % 7 = 6) (hle : toRd s ≤ toRd e) :
    (dateRangeW s e).head? = some s := by
  rw [dateRangeW_cons s e hv hs he hle]
  rfl

theorem weekly_chain :
    ∀ (fuel : Nat) (s e : Date), toRd e + 1 - toRd s ≤ fuel →
      ValidDate s → toRd s % 7 = 0 → toRd e % 7 = 6 →
      List.Chain' (fun a b => toRd b = toRd a + 7) (dateRangeW s e) := by
  intro fuel
  induction fuel with
  | zero =>
    intro s e hf hv hs he
    rw [dateRangeW_nil s e (by omega)]
    simp
  | succ n ih =>
    intro s e hf hv hs he
    by_cases hle : toRd s ≤ toRd e
    · have hv7 : ValidDate (addDays s 7) := valid_addDays s hv 7
      have hrd7 : toRd (addDays s 7) = toRd s + 7 := toRd_addDays s hv 7
      have hcons := dateRangeW_cons s e hv hs he hle
      generalize hgen : addDays s 7 = s7 at hv7 hrd7 hcons
      rw [hcons, List.chain'_cons']
      have harg1 : toRd e + 1 - toRd s7 ≤ n := by omega
      have harg2 : toRd s7 % 7 = 0 := by omega
      refine ⟨?_, ih s7 e harg1 hv7 harg2 he⟩
      intro y hy
      by_cases h7 : toRd s7 ≤ toRd e
      · rw [weekly_head s7 e hv7 harg2 he h7] at hy
        simp only [Option.mem_def, Option.some.injEq] at hy
        subst hy
        omega
      · rw [dateRangeW_nil s7 e (by omega)] at hy
        simp at hy
    · rw [dateRangeW_nil s e (by omega)]
      simp

theorem weekly_cov :
    ∀ (fuel : Nat) (s e : Date), toRd e + 1 - toRd s ≤ fuel →
      ValidDate s → toRd s % 7 = 0 → toRd e % 7 = 6 →
      ∀ x, toRd s ≤ x → x ≤ toRd e →
        ∃ d ∈ dateRangeW s e, toRd d ≤ x ∧ x ≤ toRd d + 6 := by
  intro fuel
  induction fuel with
  | zero =>
    intro s e hf hv hs he x hx1 hx2
    exfalso
    omega
  | succ n ih =>
    intro s e hf hv hs he x hx1 hx2
    have hle : toRd s ≤ toRd e := le_trans hx1 hx2
    have hv7 : ValidDate (addDays s 7) := valid_addDays s hv 7
    have hrd7 : toRd (addDays s 7) = toRd s + 7 := toRd_addDays s hv 7
    have hcons := dateRangeW_cons s e hv hs he hle
    generalize hgen : addDays s 7 = s7 at hv7 hrd7 hcons
    rw [hcons]
    by_cases hx7 : x ≤ toRd s + 6
    · have hb1 : toRd s ≤ x := hx1
      have hb2 : x ≤ toRd s + 6 := hx7
      exact ⟨s, List.mem_cons_self s _, hb1, hb2⟩
    · have harg1 : toRd e + 1 - toRd s7 ≤ n := by omega
      have harg2 : toRd s7 % 7 = 0 := by omega
      have harg3 : toRd s7 ≤ x := by omega
      obtain ⟨d, hd, hc1, hc2⟩ := ih s7 e harg1 hv7 harg2 he x harg3 hx2
      exact ⟨d, List.mem_cons_of_mem s hd, hc1, hc2⟩

/-! ### Rata-die injectivity and month-step lemmas -/

theorem daysBeforeMonth_pos_of (y m : Nat) (h1 : 2 ≤ m) (h2 : m ≤ 12) :
    1 ≤ daysBeforeMonth y m := by
  have hc : m = 2 ∨ m = 3 ∨ m = 4 ∨ m = 5 ∨ m = 6 ∨ m = 7 ∨ m = 8 ∨ m = 9 ∨ m = 10 ∨
      m = 11 ∨ m = 12 := by omega
  rcases hc with rfl | rfl | rfl | rfl | rfl | rfl | rfl | rfl | rfl | rfl | rfl <;>
    simp [daysBeforeMonth] <;> omega

theorem toRd_eq_one (d : Date) (h : ValidDate d) (h1 : toRd d = 1) : d = ⟨1, 1, 1⟩ := by
  obtain ⟨hy, hm1, hm2, hd1, hd2⟩ := h
  have hy1 : d.year = 1 := by
    by_contra hne
    have h2y : 2 ≤ d.year := by omega
    unfold toRd at h1
    omega
  have hm : d.month = 1 := by
    by_contra hne
    have h2m : 2 ≤ d.month := by omega
    have := daysBeforeMonth_pos_of d.year d.month h2m hm2
    unfold toRd at h1
    omega
  have hb := daysBeforeMonth_one d.year
  unfold toRd at h1
  rw [hm, hb] at h1
  have hd : d.day = 1 := by omega
  cases d
  simp_all

theorem nextDay_prevDay (d : Date) (h : ValidDate d) (h2 : 2 ≤ toRd d) :
    nextDay (prevDay d) = d := by
  obtain ⟨hy, hm1, hm2, hd1, hd2⟩ := h
  unfold prevDay
  split_ifs with ha hb hc
  · show nextDay ⟨d.year, d.month, d.day - 1⟩ = d
    unfold nextDay
    dsimp only
    rw [if_pos (by omega)]
    have : d.day - 1 + 1 = d.day := by omega
    rw [this]
  · -- day = 1, month ≥ 2
    show nextDay ⟨d.year, d.month - 1, daysInMonth d.year (d.month - 1)⟩ = d
    unfold nextDay
    dsimp only
    rw [if_neg (by omega), if_pos (by omega)]
    have hm : d.month - 1 + 1 = d.month := by omega
    rw [hm]
    have hday : d.day = 1 := by omega
    cases d
    simp_all
  · -- day = 1, month = 1, year ≥ 2
    show nextDay ⟨d.year - 1, 12, 31⟩ = d
    have hdim : daysInMonth (d.year - 1) 12 = 31 := by simp [daysInMonth]
    unfold nextDay
    dsimp only
    rw [hdim, if_neg (by omega), if_neg (by omega)]
    have hyy : d.year - 1 + 1 = d.year := by omega
    rw [hyy]
    have hday : d.day = 1 := by omega
    have hmon : d.month = 1 := by omega
    cases d
    simp_all
  · exfalso
    have hday : d.day = 1 := by omega
    have hmon : d.month = 1 := by omega
    have hyy : d.year = 1 := by omega
    have h1 : toRd d = 1 := by
      have hde : d = ⟨1, 1, 1⟩ := by
        cases d
        simp_all
      rw [hde]
      rfl
    omega

theorem fromRd_eq : ∀ (n : Nat) (d : Date), ValidDate d → toRd d = n + 1 →
    addDays ⟨1, 1, 1⟩ n = d := by
  intro n
  induction n with
  | zero =>
    intro d h h1
    exact (toRd_eq_one d h h1).symm
  | succ k ih =>
    intro d h h1
    have hp := toRd_prevDay d h (by omega)
    have hk := ih (prevDay d) hp.1 (by omega)
    have hstep : addDays ⟨1, 1, 1⟩ (k + 1) = nextDay (addDays ⟨1, 1, 1⟩ k) := rfl
    rw [hstep, hk]
    exact nextDay_prevDay d h (by omega)

theorem toRd_inj (d1 d2 : Date) (h1 : ValidDate d1) (h2 : ValidDate d2)
    (he : toRd d1 = toRd d2) : d1 = d2 := by
  have hm1 := toRd_min d1 h1
  have f1 := fromRd_eq (toRd d1 - 1) d1 h1 (by omega)
  have f2 := fromRd_eq (toRd d1 - 1) d2 h2 (by omega)
  rw [← f1, ← f2]

theorem addDays_within_month :
    ∀ (i : Nat) (d : Date), ValidDate d → d.day + i ≤ daysInMonth d.year d.month →
      addDays d i = ⟨d.year, d.month, d.day + i⟩ := by
  intro i
  induction i with
  | zero =>
    intro d h hb
    rfl
  | succ k ih =>
    intro d h hb
    have hk := ih d h (by omega)
    have hstep : addDays d (k + 1) = nextDay (addDays d k) := rfl
    rw [hstep, hk]
    unfold nextDay
    dsimp only
    rw [if_pos (by omega)]
    rfl

theorem addDays_month (s : Date) (h : ValidDate s) (h1 : s.day = 1) :
    addDays s (daysInMonth s.year s.month) = nextMonthFirst s := by
  have hvv := h
  obtain ⟨hy, hm1, hm2, hd1, hd2⟩ := hvv
  have hdim := daysInMonth_pos s.year s.month
  have hwm := addDays_within_month (daysInMonth s.year s.month - 1) s h (by omega)
  have hstep : addDays s (daysInMonth s.year s.month) =
      nextDay (addDays s (daysInMonth s.year s.month - 1)) := by
    have hd' : daysInMonth s.year s.month = (daysInMonth s.year s.month - 1) + 1 := by
      omega
    exact hd' ▸ rfl
  rw [hstep, hwm]
  have hday : s.day + (daysInMonth s.year s.month - 1) = daysInMonth s.year s.month := by
    omega
  rw [hday]
  unfold nextDay nextMonthFirst
  dsimp only
  rw [if_neg (by omega)]

theorem nextMonthFirst_props (s : Date) (h : ValidDate s) (h1 : s.day = 1) :
    ValidDate (nextMonthFirst s) ∧ (nextMonthFirst s).day = 1 ∧
      toRd (nextMonthFirst s) = toRd s + daysInMonth s.year s.month := by
  refine ⟨?_, ?_, ?_⟩
  · rw [← addDays_month s h h1]
    exact valid_addDays s h _
  · unfold nextMonthFirst
    split_ifs <;> rfl
  · rw [← addDays_month s h h1]
    exact toRd_addDays s h _

theorem lastday_ge (s e : Date) (hvs : ValidDate s) (h1 : s.day = 1)
    (hve : ValidDate e) (he : e.day = daysInMonth e.year e.month)
    (hle : toRd s ≤ toRd e) :
    toRd s + daysInMonth s.year s.month ≤ toRd e + 1 := by
  by_contra hlt
  push_neg at hlt
  have hilt : toRd e - toRd s < daysInMonth s.year s.month := by omega
  generalize hi : toRd e - toRd s = i at hilt
  have hrd : toRd (addDays s i) = toRd s + i := toRd_addDays s hvs _
  have hval : ValidDate (addDays s i) := valid_addDays s hvs _
  have heq : addDays s i = e := toRd_inj _ e hval hve (by omega)
  have hwm := addDays_within_month i s hvs (by omega)
  rw [hwm] at heq
  obtain ⟨hey, hem, hed⟩ :
      s.year = e.year ∧ s.month = e.month ∧ s.day + i = e.day := by
    rw [← heq]
    exact ⟨rfl, rfl, rfl⟩
  rw [← hey, ← hem] at he
  omega

/-! ### Lemmas about the monthly date range -/

theorem dateRangeMS_nil (s e : Date) (h : toRd e < toRd s) : dateRangeMS s e = [] := by
  unfold dateRangeMS
  rw [datesBetween_nil s e h]
  rfl

theorem dateRangeMS_cons (s e : Date) (h : ValidDate s) (h1 : s.day = 1)
    (hsplit : toRd s + daysInMonth s.year s.month ≤ toRd e + 1) :
    dateRangeMS s e = s :: dateRangeMS (nextMonthFirst s) e := by
  unfold dateRangeMS
  rw [datesBetween_add_split (daysInMonth s.year s.month) s e h hsplit,
    List.filter_append]
  have hone : ((List.range (daysInMonth s.year s.month)).map (addDays s)).filter
      (fun d => d.day == 1) = [addDays s 0] := by
    apply filter_map_range_single
    · exact daysInMonth_pos _ _
    · intro i hi
      have hwm := addDays_within_month i s h (by omega)
      rw [hwm]
      show (s.day + i == 1) = (i == 0)
      rcases Nat.eq_zero_or_pos i with rfl | hi0
      · simp [h1]
      · have hb1 : (s.day + i == 1) = false := beq_eq_false_iff_ne.mpr (by omega)
        have hb2 : (i == 0) = false := beq_eq_false_iff_ne.mpr (by omega)
        rw [hb1, hb2]
  rw [hone, addDays_month s h h1]
  rfl

theorem monthly_mem (s e : Date) (hv : ValidDate s) (d : Date)
    (hd : d ∈ dateRangeMS s e) : ValidDate d ∧ d.day = 1 := by
  unfold dateRangeMS at hd
  rcases List.mem_filter.mp hd with ⟨hmem, hp⟩
  rcases (mem_datesBetween s e d).mp hmem with ⟨i, hi, rfl⟩
  exact ⟨valid_addDays s hv i, by simpa using hp⟩

theorem monthly_head (s e : Date) (hv : ValidDate s) (h1 : s.day = 1)
    (hve : ValidDate e) (he : e.day = daysInMonth e.year e.month)
    (hle : toRd s ≤ toRd e) :
    (dateRangeMS s e).head? = some s := by
  rw [dateRangeMS_cons s e hv h1 (lastday_ge s e hv h1 hve he hle)]
  rfl

theorem monthly_chain :
    ∀ (fuel : Nat) (s e : Date), toRd e + 1 - toRd s ≤ fuel →
      ValidDate s → s.day = 1 → ValidDate e → e.day = daysInMonth e.year e.month →
      List.Chain' (fun a b => b = nextMonthFirst a) (dateRangeMS s e) := by
  intro fuel
  induction fuel with
  | zero =>
    intro s e hf hv h1 hve he
    rw [dateRangeMS_nil s e (by omega)]
    simp
  | succ n ih =>
    intro s e hf hv h1 hve he
    by_cases hle : toRd s ≤ toRd e
    · have hsplit := lastday_ge s e hv h1 hve he hle
      have hcons := dateRangeMS_cons s e hv h1 hsplit
      obtain ⟨hv2, h12, hrd2⟩ := nextMonthFirst_props s hv h1
      have hdim := daysInMonth_pos s.year s.month
      generalize hgen : nextMonthFirst s = s2 at hv2 h12 hrd2 hcons
      rw [hcons, List.chain'_cons']
      have harg1 : toRd e + 1 - toRd s2 ≤ n := by omega
      refine ⟨?_, ih s2 e harg1 hv2 h12 hve he⟩
      intro y hy
      by_cases h2e : toRd s2 ≤ toRd e
      · rw [monthly_head s2 e hv2 h12 hve he h2e] at hy
        simp only [Option.mem_def, Option.some.injEq] at hy
        subst hy
        exact hgen.symm
      · rw [dateRangeMS_nil s2 e (by omega)] at hy
        simp at hy
    · rw [dateRangeMS_nil s e (by omega)]
      simp

theorem monthly_cov :
    ∀ (fuel : Nat) (s e : Date), toRd e + 1 - toRd s ≤ fuel →
      ValidDate s → s.day = 1 → ValidDate e → e.day = daysInMonth e.year e.month →
      ∀ x, toRd s ≤ x → x ≤ toRd e →
        ∃ d ∈ dateRangeMS s e,
          toRd d ≤ x ∧ x ≤ toRd d + (daysInMonth d.year d.month - 1) := by
  intro fuel
  induction fuel with
  | zero =>
    intro s e hf hv h1 hve he x hx1 hx2
    exfalso
    omega
  | succ n ih =>
    intro s e hf hv h1 hve he x hx1 hx2
    have hle : toRd s ≤ toRd e := le_trans hx1 hx2
    have hsplit := lastday_ge s e hv h1 hve he hle
    have hcons := dateRangeMS_cons s e hv h1 hsplit
    obtain ⟨hv2, h12, hrd2⟩ := nextMonthFirst_props s hv h1
    have hdim := daysInMonth_pos s.year s.month
    have hdims : daysInMonth s.year s.month = daysInMonth s.year s.month := rfl
    generalize hgen : nextMonthFirst s = s2 at hv2 h12 hrd2 hcons
    rw [hcons]
    by_cases hx7 : x ≤ toRd s + (daysInMonth s.year s.month - 1)
    · exact ⟨s, List.mem_cons_self s _, hx1, hx7⟩
    · have harg1 : toRd e + 1 - toRd s2 ≤ n := by omega
      have harg3 : toRd s2 ≤ x := by omega
      obtain ⟨d, hd, hc1, hc2⟩ := ih s2 e harg1 hv2 h12 hve he x harg3 hx2
      exact ⟨d, List.mem_cons_of_mem s hd, hc1, hc2⟩

/-! ## Lemmas about the dispatcher -/

theorem requestGo_made (att : Nat → AttemptOutcome) :
    ∀ (fuel retries : Nat) (lastResp : Option Nat) (made sleeps : Nat),
      (requestGo att fuel retries lastResp made sleeps).attemptsMade ≤ made + fuel := by
  intro fuel
  induction fuel with
  | zero =>
    intro r l m s
    cases l <;> simp [requestGo]
  | succ n ih =>
    intro r l m s
    cases hr : att r with
    | resp st body =>
      by_cases hok : respOk st
      · simp [requestGo, hr, hok]
      · have hrec := ih (r + 1) (some st) (m + 1) (s + 1)
        simp only [requestGo, hr, hok]
        simp only [Bool.false_eq_true, if_false]
        omega
    | connError =>
      have hrec := ih (r + 1) l (m + 1) (s + 1)
      simp only [requestGo, hr]
      omega

theorem failedAttempt_elim (o : AttemptOutcome) (h : failedAttempt o) :
    (∃ st body, o = AttemptOutcome.resp st body ∧ respOk st = false) ∨
      o = AttemptOutcome.connError := by
  cases o with
  | resp st body => exact Or.inl ⟨st, body, rfl, h⟩
  | connError => exact Or.inr rfl

theorem mapM_processResult_status :
    ∀ (results : List TaskValue),
      (∀ r ∈ results, ∃ v, r = TaskValue.text (BodyKind.withStatus v)) →
      results.mapM processResult = Except.ok (results.map isSuccessValue) := by
  intro results
  induction results with
  | nil => intro h; rfl
  | cons a l ih =>
    intro h
    obtain ⟨v, hv⟩ := h a (List.mem_cons_self a l)
    have hl := ih (fun r hr => h r (List.mem_cons_of_mem a hr))
    rw [List.mapM_cons, hv, hl]
    rfl

theorem count_true_map (f : TaskValue → Bool) :
    ∀ l : List TaskValue, (l.map f).count true = l.countP f := by
  intro l
  induction l with
  | nil => rfl
  | cons a l ih =>
    rw [List.map_cons, List.count_cons, List.countP_cons, ih]
    cases hf : f a <;> simp [hf]

theorem bool_count_false (bs : List Bool) : bs.count false = bs.length - bs.count true := by
  induction bs with
  | nil => rfl
  | cons b l ih =>
    have hle : l.count true ≤ l.length := List.count_le_length true l
    cases b <;> simp [List.count_cons, ih] <;> omega

/-! ## Claim theorems about the dispatcher -/

/-- Claim C1 (code bug in the source): take a single job whose three POST
attempts all receive HTTP 500.  The task returns the terminal-failure dict
(status "Failed", message with the retry count, response_status 500) that
the aggregation loop is clearly meant to tally into
`failed_data_loads`, but line 192 applies `json.loads` to that dict - and
`json.loads` accepts only strings - raising `TypeError`, which only the
`except ExceptionGroup` clause could not catch: `async_requests` (and hence
the whole orchestration) raises instead of returning the summary
{attempts 1, successes 0, failures 1} required by the claim. -/
theorem c1_terminal_failure_raises_typeerror :
    resultOf (fun _ => AttemptOutcome.resp 500 (BodyKind.withStatus "x")) =
      TaskValue.failRecord (failMessage 3) 500 ∧
    async_requests [fun _ => AttemptOutcome.resp 500 (BodyKind.withStatus "x")] =
      Except.error ProcErr.typeError := by
  decide

/-- Claim C2, amended: if one job's task raises an unexpected (non-protocol)
exception, the `asyncio.TaskGroup` cancels the unfinished sibling tasks
rather than letting them run to completion, the resulting `ExceptionGroup`
is caught and logged, and `async_requests` does return a summary dictionary
- but with `attempts = len(jobs)` and `successes = failures = 0`: the
results of the sibling jobs are discarded, not tallied as partial counts. -/
theorem c2_amended (payload_list : List (Nat → AttemptOutcome))
    (h : ∃ att ∈ payload_list, resultOf att = TaskValue.raisedUnbound) :
    async_requests payload_list = Except.ok ⟨payload_list.length, 0, 0⟩ := by
  have hany : (payload_list.map resultOf).any isRaised = true := by
    rw [List.any_eq_true]
    rcases h with ⟨att, hmem, hres⟩
    refine ⟨resultOf att, List.mem_map_of_mem resultOf hmem, ?_⟩
    rw [hres]
    rfl
  simp [async_requests, hany]

/-- Witness for C2 at a concrete input: the first job's attempts are all
connection errors (its task raises `UnboundLocalError` on line 242), the
second would succeed. -/
theorem c2_witness :
    async_requests
      [fun _ => AttemptOutcome.connError,
       fun _ => AttemptOutcome.resp 200 (BodyKind.withStatus "Success")] =
      Except.ok ⟨2, 0, 0⟩ :=
  c2_amended _ ⟨fun _ => AttemptOutcome.connError, List.mem_cons_self _ _, rfl⟩

/-- Counterexample to C2 as stated: two jobs, the first raising, the second
one succeeding with a "Success" body.  A summary with partial counts would
show the sibling success (attempts 2, successes 1, failures 1); the code
returns {attempts 2, successes 0, failures 0} because the TaskGroup
cancelled and discarded everything when the first task raised. -/
theorem c2_counterexample :
    async_requests
      [fun _ => AttemptOutcome.connError,
       fun _ => AttemptOutcome.resp 200 (BodyKind.withStatus "Success")] ≠
      Except.ok ⟨2, 1, 1⟩ ∧
    async_requests
      [fun _ => AttemptOutcome.connError,
       fun _ => AttemptOutcome.resp 200 (BodyKind.withStatus "Success")] =
      Except.ok ⟨2, 0, 0⟩ := by
  decide

/-- Claim C3, amended: the per-job request function makes at most 3
attempts, strictly sequentially; it returns the body text as soon as an
attempt's response satisfies `response.ok`; each failed attempt (a non-ok
response or a connection error) costs one unit of the retry budget after a
1-second sleep; and after 3 failed attempts it returns the terminal failure
record - message carrying the retry count 3, `response_status` carrying the
status of the last HTTP response received - provided at least one attempt
received an HTTP response.  If all 3 attempts raised connection errors, it
raises `UnboundLocalError` instead of returning (the divergence that forces
this amendment). -/
theorem c3_amended (att : Nat → AttemptOutcome) :
    (aiohttp_request_to_function att).attemptsMade ≤ 3 ∧
    (∀ i, i < 3 → (∀ j, j < i → failedAttempt (att j)) →
      ∀ st body, att i = AttemptOutcome.resp st body → respOk st = true →
        aiohttp_request_to_function att = ⟨TaskValue.text body, i + 1, i⟩) ∧
    ((∀ i, i < 3 → failedAttempt (att i)) →
      ∀ st, lastRespAmong att = some st →
        aiohttp_request_to_function att =
          ⟨TaskValue.failRecord (failMessage 3) st, 3, 3⟩) ∧
    ((∀ i, i < 3 → att i = AttemptOutcome.connError) →
      aiohttp_request_to_function att = ⟨TaskValue.raisedUnbound, 3, 3⟩) := by
  refine ⟨?_, ?_, ?_, ?_⟩
  · have hb := requestGo_made att 3 0 none 0 0
    simpa [aiohttp_request_to_function] using hb
  · intro i hi hprev st body hatt hok
    interval_cases i
    · simp [aiohttp_request_to_function, requestGo, hatt, hok]
    · have hf0 := failedAttempt_elim _ (hprev 0 (by omega))
      rcases hf0 with ⟨st0, b0, h0, h0ok⟩ | h0 <;>
        simp [aiohttp_request_to_function, requestGo, h0, hatt, hok, *]
    · have hf0 := failedAttempt_elim _ (hprev 0 (by omega))
      have hf1 := failedAttempt_elim _ (hprev 1 (by omega))
      rcases hf0 with ⟨st0, b0, h0, h0ok⟩ | h0 <;>
        rcases hf1 with ⟨st1, b1, h1, h1ok⟩ | h1 <;>
        simp [aiohttp_request_to_function, requestGo, h0, h1, hatt, hok, *]
  · intro hall st hl
    have hf0 := failedAttempt_elim _ (hall 0 (by omega))
    have hf1 := failedAttempt_elim _ (hall 1 (by omega))
    have hf2 := failedAttempt_elim _ (hall 2 (by omega))
    rcases hf0 with ⟨st0, b0, h0, h0ok⟩ | h0 <;>
      rcases hf1 with ⟨st1, b1, h1, h1ok⟩ | h1 <;>
      rcases hf2 with ⟨st2, b2, h2, h2ok⟩ | h2 <;>
      simp only [lastRespAmong, h0, h1, h2, Option.some.injEq] at hl <;>
      first
      | (subst hl
         simp [aiohttp_request_to_function, requestGo, h0, h1, h2, *])
      | (exact absurd hl (by simp))
  · intro hall
    have h0 := hall 0 (by omega)
    have h1 := hall 1 (by omega)
    have h2 := hall 2 (by omega)
    simp [aiohttp_request_to_function, requestGo, h0, h1, h2]

/-- Witness for C3 at a concrete input: every attempt gets HTTP 500, so the
loop exhausts its 3 attempts and returns the failure record with the
retry count in the message and the last status 500. -/
theorem c3_witness :
    aiohttp_request_to_function (fun _ => AttemptOutcome.resp 500 (BodyKind.withStatus "x")) =
      ⟨TaskValue.failRecord (failMessage 3) 500, 3, 3⟩ :=
  (c3_amended (fun _ => AttemptOutcome.resp 500 (BodyKind.withStatus "x"))).2.2.1
    (fun i hi => rfl) 500 rfl

/-- Counterexample to C3 as stated: when all 3 attempts raise connection
errors, the function does not return a terminal failure record - building
the record reads the never-bound variable `response` (line 242) and raises
`UnboundLocalError`. -/
theorem c3_counterexample :
    aiohttp_request_to_function (fun _ => AttemptOutcome.connError) =
      ⟨TaskValue.raisedUnbound, 3, 3⟩ := by
  decide

/-- Claim C4, amended: among jobs whose final attempt returned an ok
response with a body that parses as a JSON object carrying a `status`
field, exactly those with `status = "Success"` are tallied as successes and
the rest as failures of the job.  But a malformed-JSON body, a JSON body
that is not an object, an object without a `status` key, or a job that
exhausted its retries are not contained as job failures: the result loop
raises (JSONDecodeError, TypeError, KeyError) and the exception propagates
out of the dispatcher. -/
theorem c4_amended (payload_list : List (Nat → AttemptOutcome))
    (h : ∀ att ∈ payload_list, ∃ v,
      resultOf att = TaskValue.text (BodyKind.withStatus v)) :
    async_requests payload_list =
      Except.ok ⟨payload_list.length,
        (payload_list.map resultOf).countP isSuccessValue,
        payload_list.length - (payload_list.map resultOf).countP isSuccessValue⟩ ∧
    async_requests [fun _ => AttemptOutcome.resp 200 BodyKind.nonObject] =
      Except.error ProcErr.typeError ∧
    async_requests [fun _ => AttemptOutcome.resp 200 BodyKind.noStatusField] =
      Except.error ProcErr.keyError := by
  refine ⟨?_, by decide, by decide⟩
  have hmapped : ∀ r ∈ payload_list.map resultOf, ∃ v,
      r = TaskValue.text (BodyKind.withStatus v) := by
    intro r hr
    rcases List.mem_map.mp hr with ⟨att, hmem, rfl⟩
    exact h att hmem
  have hnone : (payload_list.map resultOf).any isRaised = false := by
    rw [List.any_eq_false]
    intro r hr
    obtain ⟨v, hv⟩ := hmapped r hr
    rw [hv]
    simp [isRaised]
  have key : (payload_list.map resultOf).mapM processResult =
      Except.ok ((payload_list.map resultOf).map isSuccessValue) :=
    mapM_processResult_status _ hmapped
  simp only [async_requests, hnone, Bool.false_eq_true, if_false, key]
  rw [count_true_map, bool_count_false, count_true_map]
  simp [List.length_map]

/-- Witness for C4 at a concrete input: one job whose body says "Success",
one whose body says "Failed"; the summary tallies 1 success, 1 failure. -/
theorem c4_witness :
    async_requests
      [fun _ => AttemptOutcome.resp 200 (BodyKind.withStatus "Success"),
       fun _ => AttemptOutcome.resp 201 (BodyKind.withStatus "Failed")] =
      Except.ok ⟨2, 1, 1⟩ := by
  have hc := c4_amended
    [fun _ => AttemptOutcome.resp 200 (BodyKind.withStatus "Success"),
     fun _ => AttemptOutcome.resp 201 (BodyKind.withStatus "Failed")]
    (by
      intro att hmem
      rcases List.mem_cons.mp hmem with rfl | hmem2
      · exact ⟨"Success", rfl⟩
      · rcases List.mem_cons.mp hmem2 with rfl | h3
        · exact ⟨"Failed", rfl⟩
        · cases h3)
  exact hc.1.trans (by decide)

/-- Counterexample to C4 as stated: a single job whose response is 2xx but
whose body is not valid JSON.  The claim requires this to count as a job
failure with the dispatcher returning a summary; the code instead raises
`json.JSONDecodeError` out of `async_requests`. -/
theorem c4_counterexample :
    async_requests [fun _ => AttemptOutcome.resp 200 BodyKind.malformed] =
      Except.error ProcErr.jsonDecodeError ∧
    async_requests [fun _ => AttemptOutcome.resp 200 BodyKind.malformed] ≠
      Except.ok ⟨1, 0, 1⟩ := by
  decide

/-! ## Claim theorems about the batch planner: validation (C8) -/

/-- Claim C8, amended: the function has no dedicated `InvalidDateRange` or
`InvalidFrequency` errors and performs no start-greater-than-end
validation.  A date string that does not parse as a calendar date fails via
the `ValueError` that `strptime` raises; with frequency `None` a reversed
range is silently returned as-is; an unrecognized frequency falls through
every `elif` branch and the initial empty list is silently returned; and
parsing alone does not guarantee that a list is returned: in the
daily/weekly/monthly branches a parseable date outside the pandas
`Timestamp` range makes `pd.date_range` raise `OutOfBoundsDatetime` (and
the weekly `timedelta` arithmetic raises `OverflowError` past the
`datetime` limits), stated here for the daily branch whose endpoints are
the original dates. -/
theorem c8_amended (s e : String) (freq : Option String) :
    ((strptimeYMD s = none ∨ strptimeYMD e = none) →
      ga_api_split_request_date_batch_freq s e freq =
        Except.error SplitErr.valueErr) ∧
    (∀ sd ed, strptimeYMD s = some sd → strptimeYMD e = some ed →
      ga_api_split_request_date_batch_freq s e none = Except.ok [⟨sd, ed⟩]) ∧
    (∀ f sd ed, strptimeYMD s = some sd → strptimeYMD e = some ed →
      f ≠ "daily" → f ≠ "weekly" → f ≠ "monthly" →
      ga_api_split_request_date_batch_freq s e (some f) = Except.ok []) ∧
    (∀ sd ed, strptimeYMD s = some sd → strptimeYMD e = some ed →
      (tsInBounds sd = false ∨ tsInBounds ed = false) →
      ga_api_split_request_date_batch_freq s e (some "daily") =
        Except.error SplitErr.outOfBoundsDatetime) := by
  refine ⟨?_, ?_, ?_, ?_⟩
  · intro h
    unfold ga_api_split_request_date_batch_freq
    rcases h with h | h
    · rw [h]
    · rw [h]
      cases hs : strptimeYMD s <;> rfl
  · intro sd ed hsd hed
    unfold ga_api_split_request_date_batch_freq
    rw [hsd, hed]
    show ga_api_split_core sd ed none = Except.ok [⟨sd, ed⟩]
    rfl
  · intro f sd ed hsd hed hf1 hf2 hf3
    unfold ga_api_split_request_date_batch_freq
    rw [hsd, hed]
    show ga_api_split_core sd ed (some f) = Except.ok []
    simp [ga_api_split_core, hf1, hf2, hf3]
  · intro sd ed hsd hed hfb
    unfold ga_api_split_request_date_batch_freq
    rw [hsd, hed]
    show ga_api_split_core sd ed (some "daily") = _
    rcases hfb with h | h <;> simp [ga_api_split_core, h]

/-- Witness for C8 at concrete inputs: an unparseable start date makes the
call fail with the `strptime` ValueError, and a parseable pair of dates
before `Timestamp.min` makes the daily branch raise `OutOfBoundsDatetime`
instead of returning a list. -/
theorem c8_witness :
    ga_api_split_request_date_batch_freq "2023-13-40" "2023-01-01" none =
      Except.error SplitErr.valueErr ∧
    ga_api_split_request_date_batch_freq "1400-02-03" "1400-02-04" (some "daily") =
      Except.error SplitErr.outOfBoundsDatetime :=
  ⟨(c8_amended "2023-13-40" "2023-01-01" none).1 (Or.inl (by decide)),
   (c8_amended "1400-02-03" "1400-02-04" none).2.2.2 ⟨1400, 2, 3⟩ ⟨1400, 2, 4⟩
     (by decide) (by decide) (Or.inl (by decide))⟩

/-- Counterexample to C8 as stated: with `start_date > end_date` and no
frequency the function silently returns the reversed single range instead
of failing with `InvalidDateRange`, and with an unrecognized frequency it
silently returns an empty list instead of failing with
`InvalidFrequency`. -/
theorem c8_counterexample :
    ga_api_split_request_date_batch_freq "2023-01-02" "2023-01-01" none =
      Except.ok [⟨⟨2023, 1, 2⟩, ⟨2023, 1, 1⟩⟩] ∧
    ga_api_split_request_date_batch_freq "2023-01-01" "2023-01-02" (some "quarterly") =
      Except.ok [] := by
  decide

/-! ## Claim theorem about the concurrency resources (C9) -/

/-- Claim C9, amended: the connection pool is a single
`TCPConnector(limit=8)` shared by all jobs through one `ClientSession`, so
at most 8 transport connections are pooled; but the `AsyncLimiter(600, 60)`
is constructed inside `aiohttp_request_to_function`, once per job task, so
every job gets its own limiter instance (600 requests per 60 seconds per
job) and no process-wide rate limit is enforced by a shared limiter. -/
theorem c9_amended (n i j : Nat) (hi : i < n) (hj : j < n) (hne : i ≠ j) :
    tcp_connector_limit = 8 ∧
    (limitersCreated n).length = n ∧
    (limitersCreated n)[i]? = some ⟨i, 600, 60⟩ ∧
    (limitersCreated n)[j]? = some ⟨j, 600, 60⟩ ∧
    (⟨i, 600, 60⟩ : AsyncLimiterInst) ≠ ⟨j, 600, 60⟩ := by
  refine ⟨rfl, by simp [limitersCreated], ?_, ?_, ?_⟩
  · unfold limitersCreated
    rw [List.getElem?_map, List.getElem?_range hi]
    rfl
  · unfold limitersCreated
    rw [List.getElem?_map, List.getElem?_range hj]
    rfl
  · intro hc
    injection hc with h1 h2 h3
    exact hne h1

/-- Witness for C9 at a concrete input: a 2-job batch. -/
theorem c9_witness :
    tcp_connector_limit = 8 ∧
    (limitersCreated 2).length = 2 ∧
    (limitersCreated 2)[0]? = some ⟨0, 600, 60⟩ ∧
    (limitersCreated 2)[1]? = some ⟨1, 600, 60⟩ ∧
    (⟨0, 600, 60⟩ : AsyncLimiterInst) ≠ ⟨1, 600, 60⟩ :=
  c9_amended 2 0 1 (by omega) (by omega) (by omega)

/-- Counterexample to C9 as stated: a batch of two jobs creates two distinct
`AsyncLimiter(600, 60)` instances, one per job, refuting the claim of a
single rate limiter shared across all jobs in the batch. -/
theorem c9_counterexample :
    limitersCreated 2 = [⟨0, 600, 60⟩, ⟨1, 600, 60⟩] ∧
    (⟨0, 600, 60⟩ : AsyncLimiterInst) ≠ ⟨1, 600, 60⟩ := by
  decide

/-! ## Claim theorem about the entry point (C10) -/

/-- Claim C10: whenever the template selection yields no templates (the
combined standard+custom list is empty), `prep_request_batches` returns the
structured response with status "Failed", the fixed message, and the echoed
request data - and it does so before any date-range planning or dispatch:
the result does not depend on (and never invokes) the rest of the
pipeline, which is abstracted by the arbitrary continuation `rest`. -/
theorem c10_no_templates_failure {α β : Type} (request_data : α)
    (stdSel cstSel : Option TemplateSelection)
    (config_std config_cst : List ExtractionTemplate)
    (rest : List ExtractionTemplate → β)
    (h : selectTemplates stdSel config_std ++ selectTemplates cstSel config_cst = []) :
    prep_request_batches request_data stdSel cstSel config_std config_cst rest =
      PrepOutcome.failedNoTemplates "Failed" noTemplatesMessage request_data := by
  simp [prep_request_batches, h]

/-- Witness for C10 at a concrete input: the request selects nothing (both
selection dictionaries absent), the config has one standard template; the
entry point returns the failure response with the echoed request data. -/
theorem c10_witness :
    prep_request_batches (0 : Nat) none none [⟨"sessions_extract"⟩] []
      (fun l => l.length) =
      PrepOutcome.failedNoTemplates "Failed" noTemplatesMessage 0 :=
  c10_no_templates_failure 0 none none [⟨"sessions_extract"⟩] [] (fun l => l.length) rfl

/-! ## Claim theorems about the batch planner: daily and none (C7) -/

theorem ga_api_split_core_none (sd ed : Date) :
    ga_api_split_core sd ed none = Except.ok [⟨sd, ed⟩] := rfl

theorem ga_api_split_core_daily (sd ed : Date)
    (hb : (tsInBounds sd && tsInBounds ed) = true) :
    ga_api_split_core sd ed (some "daily") =
      Except.ok ((datesBetween sd ed).map (fun d => ⟨d, d⟩)) := by
  simp [ga_api_split_core, hb]

theorem ga_api_split_core_weekly (sd ed ns ne : Date)
    (hgs : (if isoweekday sd ≠ 7 then subDays sd (isoweekday sd % 7) else sd) = ns)
    (hge : (if isoweekday ed ≠ 6 then addDays ed ((13 - isoweekday ed) % 7) else ed) = ne)
    (h1 : isoweekday sd % 7 < toRd sd)
    (h2 : toRd ed + (13 - isoweekday ed) % 7 ≤ dtMaxRd)
    (hb : (tsInBounds ns && tsInBounds ne) = true) :
    ga_api_split_core sd ed (some "weekly") =
      Except.ok ((dateRangeW ns ne).map
        (fun d => ⟨d, addDays d ((13 - isoweekday d) % 7)⟩)) := by
  subst hgs
  subst hge
  have hc1 : ¬(isoweekday sd ≠ 7 ∧ toRd sd ≤ isoweekday sd % 7) := by omega
  have hc2 : ¬(isoweekday ed ≠ 6 ∧ dtMaxRd < toRd ed + (13 - isoweekday ed) % 7) := by
    omega
  simp only [ne_eq, ite_not, Bool.and_eq_true] at hb
  simp [ga_api_split_core, hc1, hc2, hb.1, hb.2]

theorem ga_api_split_core_monthly (sd ed ns ne : Date)
    (hgs : (if sd.day ≠ 1 then ⟨sd.year, sd.month, 1⟩ else sd) = ns)
    (hge : (⟨ed.year, ed.month, daysInMonth ed.year ed.month⟩ : Date) = ne)
    (hb : (tsInBounds ns && tsInBounds ne) = true) :
    ga_api_split_core sd ed (some "monthly") =
      Except.ok ((dateRangeMS ns ne).map
        (fun d => ⟨d, ⟨d.year, d.month, daysInMonth d.year d.month⟩⟩)) := by
  subst hgs
  subst hge
  have hnee : (if ed ≠ (⟨ed.year, ed.month, daysInMonth ed.year ed.month⟩ : Date) then
      (⟨ed.year, ed.month, daysInMonth ed.year ed.month⟩ : Date) else ed) =
      (⟨ed.year, ed.month, daysInMonth ed.year ed.month⟩ : Date) := by
    by_cases hw : ed ≠ (⟨ed.year, ed.month, daysInMonth ed.year ed.month⟩ : Date)
    · rw [if_pos hw]
    · rw [if_neg hw]
      push_neg at hw
      exact hw
  simp only [ne_eq, ite_not, Bool.and_eq_true] at hb
  simp [ga_api_split_core, hnee, hb.1, hb.2]

/-- Claim C7, amended: for every parseable start ≤ end, the split with no
frequency returns exactly one batch equal to the full range (no pandas
involved); the daily split returns exactly `(end - start).days + 1` batches,
each one day long (its end equals its start), in chronological order, the
first starting at the start date and the last ending at the end date -
provided both dates lie within the pandas `Timestamp` range
1677-09-22 .. 2262-04-11.  Outside that range the daily branch raises
`OutOfBoundsDatetime` inside `pd.date_range` instead of returning batches
(see the counterexample). -/
theorem c7_amended (ss es : String) (sd ed : Date)
    (hs : strptimeYMD ss = some sd) (he : strptimeYMD es = some ed)
    (hle : toRd sd ≤ toRd ed) :
    (tsMinRd ≤ toRd sd → toRd ed ≤ tsMaxRd →
      ∃ batches,
        ga_api_split_request_date_batch_freq ss es (some "daily") =
          Except.ok batches ∧
        batches.length = toRd ed - toRd sd + 1 ∧
        (∀ b ∈ batches, b.end_date = b.start_date) ∧
        List.Chain' (fun a b => toRd b.start_date = toRd a.start_date + 1) batches ∧
        batches.head? = some ⟨sd, sd⟩ ∧
        batches.getLast? = some ⟨ed, ed⟩) ∧
    ga_api_split_request_date_batch_freq ss es none = Except.ok [⟨sd, ed⟩] := by
  have hvs := strptimeYMD_valid ss sd hs
  have hve := strptimeYMD_valid es ed he
  constructor
  · intro hbs hbe
    have hb : (tsInBounds sd && tsInBounds ed) = true := by
      simp only [tsInBounds, Bool.and_eq_true, decide_eq_true_eq]
      omega
    refine ⟨(datesBetween sd ed).map (fun d => ⟨d, d⟩), ?_, ?_, ?_, ?_, ?_, ?_⟩
    · unfold ga_api_split_request_date_batch_freq
      rw [hs, he]
      show ga_api_split_core sd ed (some "daily") = _
      rw [ga_api_split_core_daily sd ed hb]
    · rw [List.length_map, datesBetween_length]
      omega
    · intro b hb
      rcases List.mem_map.mp hb with ⟨d, hd, rfl⟩
      rfl
    · rw [List.chain'_map]
      exact datesBetween_chain sd ed hvs
    · rw [List.head?_map, datesBetween_head sd ed hle]
      rfl
    · rw [List.getLast?_map, datesBetween_getLast sd ed hle]
      have heq : addDays sd (toRd ed - toRd sd) = ed := by
        apply toRd_inj _ _ (valid_addDays sd hvs _) hve
        rw [toRd_addDays sd hvs]
        omega
      rw [heq]
      rfl
  · unfold ga_api_split_request_date_batch_freq
    rw [hs, he]
    rfl

/-- Witness for C7 at a concrete input: the three days of
2023-01-01 .. 2023-01-03, well within the `Timestamp` range. -/
theorem c7_witness :
    (∃ batches,
      ga_api_split_request_date_batch_freq "2023-01-01" "2023-01-03" (some "daily") =
        Except.ok batches ∧
      batches.length = toRd ⟨2023, 1, 3⟩ - toRd ⟨2023, 1, 1⟩ + 1 ∧
      (∀ b ∈ batches, b.end_date = b.start_date) ∧
      List.Chain' (fun a b => toRd b.start_date = toRd a.start_date + 1) batches ∧
      batches.head? = some ⟨⟨2023, 1, 1⟩, ⟨2023, 1, 1⟩⟩ ∧
      batches.getLast? = some ⟨⟨2023, 1, 3⟩, ⟨2023, 1, 3⟩⟩) ∧
    ga_api_split_request_date_batch_freq "2023-01-01" "2023-01-03" none =
      Except.ok [⟨⟨2023, 1, 1⟩, ⟨2023, 1, 3⟩⟩] :=
  ⟨(c7_amended "2023-01-01" "2023-01-03" ⟨2023, 1, 1⟩ ⟨2023, 1, 3⟩
      (by decide) (by decide) (by decide)).1 (by decide) (by decide),
   (c7_amended "2023-01-01" "2023-01-03" ⟨2023, 1, 1⟩ ⟨2023, 1, 3⟩
      (by decide) (by decide) (by decide)).2⟩

/-- Counterexample to C7 as stated: 1400-01-01 .. 1400-01-03 both parse and
are in order, yet the daily split raises `OutOfBoundsDatetime` inside
`pd.date_range` (the dates precede `Timestamp.min`) instead of returning
the three one-day batches the claim promises. -/
theorem c7_counterexample :
    ga_api_split_request_date_batch_freq "1400-01-01" "1400-01-03" (some "daily") =
      Except.error SplitErr.outOfBoundsDatetime ∧
    ga_api_split_request_date_batch_freq "1400-01-01" "1400-01-03" (some "daily") ≠
      Except.ok [⟨⟨1400, 1, 1⟩, ⟨1400, 1, 1⟩⟩, ⟨⟨1400, 1, 2⟩, ⟨1400, 1, 2⟩⟩,
        ⟨⟨1400, 1, 3⟩, ⟨1400, 1, 3⟩⟩] := by
  decide

/-! ## Claim theorem about the batch planner: weekly (C5) -/

/-- Claim C5, amended: for every parseable start ≤ end whose widened
endpoints stay inside the pandas `Timestamp` range (stated via the
sufficient margins start ≥ `Timestamp.min` date + 6 days and
end ≤ `Timestamp.max` date - 6 days, which keep the Sunday pull-back and
Saturday push-forward in bounds), every batch returned by the weekly split
starts on a Sunday and ends 6 days later on a Saturday, consecutive batch
starts are exactly 7 days apart, and the batches cover every day of
[start, end]; concretely, split("2023-01-01", "2023-01-14", "weekly") is
exactly [{2023-01-01, 2023-01-07}, {2023-01-08, 2023-01-14}].  Outside the
`Timestamp` range the branch raises `OutOfBoundsDatetime` (see the
counterexample), and near the `datetime` limits the widening itself raises
`OverflowError`. -/
theorem c5_amended (ss es : String) (sd ed : Date)
    (hs : strptimeYMD ss = some sd) (he : strptimeYMD es = some ed)
    (hle : toRd sd ≤ toRd ed)
    (hbs : tsMinRd + 6 ≤ toRd sd) (hbe : toRd ed + 6 ≤ tsMaxRd) :
    (∃ batches,
      ga_api_split_request_date_batch_freq ss es (some "weekly") =
        Except.ok batches ∧
      (∀ b ∈ batches, isoweekday b.start_date = 7 ∧
        toRd b.end_date = toRd b.start_date + 6 ∧ isoweekday b.end_date = 6) ∧
      List.Chain' (fun a b => toRd b.start_date = toRd a.start_date + 7) batches ∧
      (∀ x, toRd sd ≤ x → x ≤ toRd ed →
        ∃ b ∈ batches, toRd b.start_date ≤ x ∧ x ≤ toRd b.end_date)) ∧
    ga_api_split_request_date_batch_freq "2023-01-01" "2023-01-14" (some "weekly") =
      Except.ok [⟨⟨2023, 1, 1⟩, ⟨2023, 1, 7⟩⟩, ⟨⟨2023, 1, 8⟩, ⟨2023, 1, 14⟩⟩] := by
  refine ⟨?_, by decide⟩
  have hvs := strptimeYMD_valid ss sd hs
  have hve := strptimeYMD_valid es ed he
  have hts7 : 7 ≤ tsMinRd := by decide
  have htsdt : tsMaxRd ≤ dtMaxRd := by decide
  obtain ⟨hvns, hns7, hnsle, hnsge⟩ :
      ValidDate (if isoweekday sd ≠ 7 then subDays sd (isoweekday sd % 7) else sd) ∧
      toRd (if isoweekday sd ≠ 7 then subDays sd (isoweekday sd % 7) else sd) % 7 = 0 ∧
      toRd (if isoweekday sd ≠ 7 then subDays sd (isoweekday sd % 7) else sd) ≤ toRd sd ∧
      toRd sd ≤
        toRd (if isoweekday sd ≠ 7 then subDays sd (isoweekday sd % 7) else sd) + 6 := by
    have hmod := isoweekday_mod sd
    have hrange := isoweekday_range sd
    by_cases hw : isoweekday sd ≠ 7
    · rw [if_pos hw]
      have hne0 : toRd sd % 7 ≠ 0 := by
        intro hc
        exact hw ((isoweekday_eq_seven sd).mpr hc)
      obtain ⟨hv1, hr1⟩ := toRd_subDays sd hvs (isoweekday sd % 7) (by omega)
      exact ⟨hv1, by omega, by omega, by omega⟩
    · rw [if_neg hw]
      push_neg at hw
      exact ⟨hvs, (isoweekday_eq_seven sd).mp hw, le_refl _, by omega⟩
  obtain ⟨hvne, hne6, hnege, hnele⟩ :
      ValidDate (if isoweekday ed ≠ 6 then addDays ed ((13 - isoweekday ed) % 7) else ed) ∧
      toRd (if isoweekday ed ≠ 6 then addDays ed ((13 - isoweekday ed) % 7) else ed) % 7
        = 6 ∧
      toRd ed ≤
        toRd (if isoweekday ed ≠ 6 then addDays ed ((13 - isoweekday ed) % 7) else ed) ∧
      toRd (if isoweekday ed ≠ 6 then addDays ed ((13 - isoweekday ed) % 7) else ed) ≤
        toRd ed + 6 := by
    have hmod := isoweekday_mod ed
    have hrange := isoweekday_range ed
    by_cases hw : isoweekday ed ≠ 6
    · rw [if_pos hw]
      have hr1 := toRd_addDays ed hve ((13 - isoweekday ed) % 7)
      exact ⟨valid_addDays ed hve _, by omega, by omega, by omega⟩
    · rw [if_neg hw]
      push_neg at hw
      exact ⟨hve, by omega, le_refl _, by omega⟩
  generalize hgs : (if isoweekday sd ≠ 7 then subDays sd (isoweekday sd % 7) else sd) = ns
    at hvns hns7 hnsle hnsge
  generalize hge :
    (if isoweekday ed ≠ 6 then addDays ed ((13 - isoweekday ed) % 7) else ed) = ne
    at hvne hne6 hnege hnele
  have h1 : isoweekday sd % 7 < toRd sd := by
    have hm : isoweekday sd % 7 < 7 := Nat.mod_lt _ (by norm_num)
    omega
  have h2 : toRd ed + (13 - isoweekday ed) % 7 ≤ dtMaxRd := by
    have hm : (13 - isoweekday ed) % 7 < 7 := Nat.mod_lt _ (by norm_num)
    omega
  have hb : (tsInBounds ns && tsInBounds ne) = true := by
    simp only [tsInBounds, Bool.and_eq_true, decide_eq_true_eq]
    omega
  refine ⟨(dateRangeW ns ne).map (fun d => ⟨d, addDays d ((13 - isoweekday d) % 7)⟩),
    ?_, ?_, ?_, ?_⟩
  · unfold ga_api_split_request_date_batch_freq
    rw [hs, he]
    show ga_api_split_core sd ed (some "weekly") = _
    exact ga_api_split_core_weekly sd ed ns ne hgs hge h1 h2 hb
  · intro b hb
    rcases List.mem_map.mp hb with ⟨d, hd, rfl⟩
    obtain ⟨hvd, hd7⟩ := weekly_mem ns ne hvns d hd
    have hdiso : isoweekday d = 7 := (isoweekday_eq_seven d).mpr hd7
    have hoff : (13 - isoweekday d) % 7 = 6 := by rw [hdiso]
    refine ⟨hdiso, ?_, ?_⟩
    · show toRd (addDays d ((13 - isoweekday d) % 7)) = toRd d + 6
      rw [hoff, toRd_addDays d hvd 6]
    · show isoweekday (addDays d ((13 - isoweekday d) % 7)) = 6
      rw [hoff]
      have hr6 := toRd_addDays d hvd 6
      unfold isoweekday
      rw [hr6]
      have h7a : (toRd d + 6) % 7 = 6 := by omega
      rw [h7a]
      norm_num
  · rw [List.chain'_map]
    exact weekly_chain (toRd ne + 1 - toRd ns) ns ne (le_refl _) hvns hns7 hne6
  · intro x hx1 hx2
    obtain ⟨d, hd, hc1, hc2⟩ := weekly_cov (toRd ne + 1 - toRd ns) ns ne (le_refl _)
      hvns hns7 hne6 x (by omega) (by omega)
    obtain ⟨hvd, hd7⟩ := weekly_mem ns ne hvns d hd
    have hdiso : isoweekday d = 7 := (isoweekday_eq_seven d).mpr hd7
    have hoff : (13 - isoweekday d) % 7 = 6 := by rw [hdiso]
    refine ⟨⟨d, addDays d ((13 - isoweekday d) % 7)⟩, List.mem_map_of_mem _ hd, hc1, ?_⟩
    show x ≤ toRd (addDays d ((13 - isoweekday d) % 7))
    rw [hoff, toRd_addDays d hvd 6]
    omega

/-- Witness for C5 at the concrete spec scenario 2023-01-01 .. 2023-01-14,
well inside the `Timestamp` range. -/
theorem c5_witness :
    (∃ batches,
      ga_api_split_request_date_batch_freq "2023-01-01" "2023-01-14" (some "weekly") =
        Except.ok batches ∧
      (∀ b ∈ batches, isoweekday b.start_date = 7 ∧
        toRd b.end_date = toRd b.start_date + 6 ∧ isoweekday b.end_date = 6) ∧
      List.Chain' (fun a b => toRd b.start_date = toRd a.start_date + 7) batches ∧
      (∀ x, toRd ⟨2023, 1, 1⟩ ≤ x → x ≤ toRd ⟨2023, 1, 14⟩ →
        ∃ b ∈ batches, toRd b.start_date ≤ x ∧ x ≤ toRd b.end_date)) ∧
    ga_api_split_request_date_batch_freq "2023-01-01" "2023-01-14" (some "weekly") =
      Except.ok [⟨⟨2023, 1, 1⟩, ⟨2023, 1, 7⟩⟩, ⟨⟨2023, 1, 8⟩, ⟨2023, 1, 14⟩⟩] :=
  c5_amended "2023-01-01" "2023-01-14" ⟨2023, 1, 1⟩ ⟨2023, 1, 14⟩
    (by decide) (by decide) (by decide) (by decide) (by decide)

/-- Counterexample to C5 as stated: 1400-01-05 is a Sunday and 1400-01-18 a
Saturday, both parse and are in order, yet the weekly split raises
`OutOfBoundsDatetime` inside `pd.date_range` (the dates precede
`Timestamp.min`) instead of returning the two covering Sunday-to-Saturday
batches the claim promises. -/
theorem c5_counterexample :
    ga_api_split_request_date_batch_freq "1400-01-05" "1400-01-18" (some "weekly") =
      Except.error SplitErr.outOfBoundsDatetime ∧
    ga_api_split_request_date_batch_freq "1400-01-05" "1400-01-18" (some "weekly") ≠
      Except.ok [⟨⟨1400, 1, 5⟩, ⟨1400, 1, 11⟩⟩, ⟨⟨1400, 1, 12⟩, ⟨1400, 1, 18⟩⟩] := by
  decide

/-! ## Claim theorem about the batch planner: monthly (C6) -/

theorem toRd_day_shift (d : Date) (k : Nat) :
    toRd ⟨d.year, d.month, k⟩ = toRd d - d.day + k := by
  unfold toRd
  dsimp only
  omega

theorem toRd_ge_day (d : Date) : d.day ≤ toRd d := by
  unfold toRd
  omega

/-- Claim C6, amended: for every parseable start ≤ end whose widened
endpoints stay inside the pandas `Timestamp` range (stated via the
sufficient margins start ≥ `Timestamp.min` date + 31 days and
end ≤ `Timestamp.max` date - 31 days, which keep the pull-back to the 1st
and the push to the last day of the month in bounds), every batch returned
by the monthly split spans exactly one whole calendar month - its start is
the 1st and its end the last day of the same month, with
`calendar.monthrange` handling leap years - consecutive batch starts are
the firsts of consecutive months, and the batches cover every day of
[start, end]; concretely, split("2023-01-15", "2023-02-15", "monthly") is
exactly [{2023-01-01, 2023-01-31}, {2023-02-01, 2023-02-28}].  Outside the
`Timestamp` range the branch raises `OutOfBoundsDatetime` (see the
counterexample). -/
theorem c6_amended (ss es : String) (sd ed : Date)
    (hs : strptimeYMD ss = some sd) (he : strptimeYMD es = some ed)
    (hle : toRd sd ≤ toRd ed)
    (hbs : tsMinRd + 31 ≤ toRd sd) (hbe : toRd ed + 31 ≤ tsMaxRd) :
    (∃ batches,
      ga_api_split_request_date_batch_freq ss es (some "monthly") =
        Except.ok batches ∧
      (∀ b ∈ batches, b.start_date.day = 1 ∧
        b.end_date = ⟨b.start_date.year, b.start_date.month,
          daysInMonth b.start_date.year b.start_date.month⟩) ∧
      List.Chain' (fun a b => b.start_date = nextMonthFirst a.start_date) batches ∧
      (∀ x, toRd sd ≤ x → x ≤ toRd ed →
        ∃ b ∈ batches, toRd b.start_date ≤ x ∧ x ≤ toRd b.end_date)) ∧
    ga_api_split_request_date_batch_freq "2023-01-15" "2023-02-15" (some "monthly") =
      Except.ok [⟨⟨2023, 1, 1⟩, ⟨2023, 1, 31⟩⟩, ⟨⟨2023, 2, 1⟩, ⟨2023, 2, 28⟩⟩] := by
  refine ⟨?_, by decide⟩
  have hvs := strptimeYMD_valid ss sd hs
  have hve := strptimeYMD_valid es ed he
  obtain ⟨hvns, hns1, hnsle, hnsge⟩ :
      ValidDate (if sd.day ≠ 1 then (⟨sd.year, sd.month, 1⟩ : Date) else sd) ∧
      (if sd.day ≠ 1 then (⟨sd.year, sd.month, 1⟩ : Date) else sd).day = 1 ∧
      toRd (if sd.day ≠ 1 then (⟨sd.year, sd.month, 1⟩ : Date) else sd) ≤ toRd sd ∧
      toRd sd ≤ toRd (if sd.day ≠ 1 then (⟨sd.year, sd.month, 1⟩ : Date) else sd) + 30 := by
    have h5 := hvs
    obtain ⟨hy, hm1, hm2, hd1, hd2⟩ := h5
    have hdle := daysInMonth_le sd.year sd.month
    by_cases hw : sd.day ≠ 1
    · rw [if_pos hw]
      refine ⟨?_, rfl, ?_, ?_⟩
      · rw [validDate_mk]
        have := daysInMonth_pos sd.year sd.month
        omega
      · rw [toRd_day_shift sd 1]
        have := toRd_ge_day sd
        omega
      · rw [toRd_day_shift sd 1]
        have := toRd_ge_day sd
        omega
    · rw [if_neg hw]
      push_neg at hw
      exact ⟨hvs, hw, le_refl _, by omega⟩
  obtain ⟨hvne, hne1, hnege, hnele⟩ :
      ValidDate (⟨ed.year, ed.month, daysInMonth ed.year ed.month⟩ : Date) ∧
      (⟨ed.year, ed.month, daysInMonth ed.year ed.month⟩ : Date).day =
        daysInMonth (⟨ed.year, ed.month, daysInMonth ed.year ed.month⟩ : Date).year
          (⟨ed.year, ed.month, daysInMonth ed.year ed.month⟩ : Date).month ∧
      toRd ed ≤ toRd (⟨ed.year, ed.month, daysInMonth ed.year ed.month⟩ : Date) ∧
      toRd (⟨ed.year, ed.month, daysInMonth ed.year ed.month⟩ : Date) ≤ toRd ed + 30 := by
    have h5 := hve
    obtain ⟨hy, hm1, hm2, hd1, hd2⟩ := h5
    have hdle := daysInMonth_le ed.year ed.month
    refine ⟨?_, rfl, ?_, ?_⟩
    · rw [validDate_mk]
      have := daysInMonth_pos ed.year ed.month
      omega
    · rw [toRd_day_shift ed (daysInMonth ed.year ed.month)]
      have := toRd_ge_day ed
      omega
    · rw [toRd_day_shift ed (daysInMonth ed.year ed.month)]
      have := toRd_ge_day ed
      omega
  generalize hgs : (if sd.day ≠ 1 then (⟨sd.year, sd.month, 1⟩ : Date) else sd) = ns
    at hvns hns1 hnsle hnsge
  generalize hge : (⟨ed.year, ed.month, daysInMonth ed.year ed.month⟩ : Date) = ne
    at hvne hne1 hnege hnele
  have hb : (tsInBounds ns && tsInBounds ne) = true := by
    simp only [tsInBounds, Bool.and_eq_true, decide_eq_true_eq]
    omega
  refine ⟨(dateRangeMS ns ne).map
      (fun d => ⟨d, ⟨d.year, d.month, daysInMonth d.year d.month⟩⟩), ?_, ?_, ?_, ?_⟩
  · unfold ga_api_split_request_date_batch_freq
    rw [hs, he]
    show ga_api_split_core sd ed (some "monthly") = _
    exact ga_api_split_core_monthly sd ed ns ne hgs hge hb
  · intro b hb
    rcases List.mem_map.mp hb with ⟨d, hd, rfl⟩
    obtain ⟨hvd, hd1⟩ := monthly_mem ns ne hvns d hd
    exact ⟨hd1, rfl⟩
  · rw [List.chain'_map]
    exact monthly_chain (toRd ne + 1 - toRd ns) ns ne (le_refl _) hvns hns1 hvne hne1
  · intro x hx1 hx2
    obtain ⟨d, hd, hc1, hc2⟩ := monthly_cov (toRd ne + 1 - toRd ns) ns ne (le_refl _)
      hvns hns1 hvne hne1 x (by omega) (by omega)
    obtain ⟨hvd, hd1⟩ := monthly_mem ns ne hvns d hd
    refine ⟨⟨d, ⟨d.year, d.month, daysInMonth d.year d.month⟩⟩,
      List.mem_map_of_mem _ hd, hc1, ?_⟩
    show x ≤ toRd ⟨d.year, d.month, daysInMonth d.year d.month⟩
    rw [toRd_day_shift]
    have := daysInMonth_pos d.year d.month
    omega

/-- Witness for C6 at the concrete spec scenario 2023-01-15 .. 2023-02-15,
well inside the `Timestamp` range. -/
theorem c6_witness :
    (∃ batches,
      ga_api_split_request_date_batch_freq "2023-01-15" "2023-02-15" (some "monthly") =
        Except.ok batches ∧
      (∀ b ∈ batches, b.start_date.day = 1 ∧
        b.end_date = ⟨b.start_date.year, b.start_date.month,
          daysInMonth b.start_date.year b.start_date.month⟩) ∧
      List.Chain' (fun a b => b.start_date = nextMonthFirst a.start_date) batches ∧
      (∀ x, toRd ⟨2023, 1, 15⟩ ≤ x → x ≤ toRd ⟨2023, 2, 15⟩ →
        ∃ b ∈ batches, toRd b.start_date ≤ x ∧ x ≤ toRd b.end_date)) ∧
    ga_api_split_request_date_batch_freq "2023-01-15" "2023-02-15" (some "monthly") =
      Except.ok [⟨⟨2023, 1, 1⟩, ⟨2023, 1, 31⟩⟩, ⟨⟨2023, 2, 1⟩, ⟨2023, 2, 28⟩⟩] :=
  c6_amended "2023-01-15" "2023-02-15" ⟨2023, 1, 15⟩ ⟨2023, 2, 15⟩
    (by decide) (by decide) (by decide) (by decide) (by decide)

/-- Counterexample to C6 as stated: 1400-01-15 and 1400-02-15 both parse and
are in order, yet the monthly split raises `OutOfBoundsDatetime` inside
`pd.date_range` (the widened dates precede `Timestamp.min`) instead of
returning the two whole-month batches the claim promises. -/
theorem c6_counterexample :
    ga_api_split_request_date_batch_freq "1400-01-15" "1400-02-15" (some "monthly") =
      Except.error SplitErr.outOfBoundsDatetime ∧
    ga_api_split_request_date_batch_freq "1400-01-15" "1400-02-15" (some "monthly") ≠
      Except.ok [⟨⟨1400, 1, 1⟩, ⟨1400, 1, 31⟩⟩, ⟨⟨1400, 2, 1⟩, ⟨1400, 2, 28⟩⟩] := by
  decide

end GaUaManager
